import Mathlib

/-!
# HTU31D I2C driver: read / cache / validate protocol

A shallow embedding of `src/src/mgos_htu31d.c` (with the constants of
`src/src/mgos_htu31d_internal.h` and the statistics record of
`src/include/mgos_htu31d.h`).

Modelling conventions.

* `uint8_t`, `uint16_t` and `uint32_t` values are natural numbers; every
  place where the C code truncates is an explicit `%`.
* `float` and `double` values (temperature, humidity, times) are exact
  rationals.
* The bus transport and the clock are external.  Every call of an operation
  receives a record with the answers the environment gives during that call
  (the clock readings, the result of each transport call), and returns the
  list of external operations it performed, in program order.
-/

namespace HTU31D

/-! ## Constants (`mgos_htu31d.h`, `mgos_htu31d_internal.h`) -/

/-- The constant `MGOS_HTU31D_READ_DELAY` (seconds). -/
def MGOS_HTU31D_READ_DELAY : ℚ := 2

/-- The constant `MGOS_HTU31D_DEFAULT_I2CADDR`. -/
def MGOS_HTU31D_DEFAULT_I2CADDR : Nat := 0x40

/-- The command byte `MGOS_HTU31D_READTEMPHUM`. -/
def MGOS_HTU31D_READTEMPHUM : Nat := 0x00

/-- The command byte `MGOS_HTU31D_CONVERSION`. -/
def MGOS_HTU31D_CONVERSION : Nat := 0x40

/-- The command byte `MGOS_HTU31D_HEATERON`. -/
def MGOS_HTU31D_HEATERON : Nat := 0x04

/-- The command byte `MGOS_HTU31D_HEATEROFF`. -/
def MGOS_HTU31D_HEATEROFF : Nat := 0x02

/-- The command byte `MGOS_HTU31D_READREG`. -/
def MGOS_HTU31D_READREG : Nat := 0x0A

/-- The command byte `MGOS_HTU31D_RESET`. -/
def MGOS_HTU31D_RESET : Nat := 0x1E

/-! ## Data model -/

/-- The record `struct mgos_htu31d_stats`; the counters are `uint32_t`. -/
structure mgos_htu31d_stats where
  last_read_time : ℚ
  read : Nat
  read_success : Nat
  read_success_cached : Nat
  read_success_usecs : ℚ
  deriving DecidableEq

/-- The record `struct mgos_htu31d`.  The field `i2c` is the bus handle: `none` is the
null pointer, `some h` a handle `h`. -/
structure mgos_htu31d where
  i2c : Option Nat
  i2caddr : Nat
  stats : mgos_htu31d_stats
  humidity : ℚ
  temperature : ℚ
  deriving DecidableEq

/-- One external operation performed by the driver. -/
inductive BusOp where
  /-- A call `mgos_i2c_write(i2c, addr, bytes, len, stop)`. -/
  | write (i2c : Nat) (addr : Nat) (bytes : List Nat) (stop : Bool)
  /-- A call `mgos_i2c_read(i2c, addr, buf, len, stop)`. -/
  | read (i2c : Nat) (addr : Nat) (len : Nat) (stop : Bool)
  /-- A call `mgos_usleep(usecs)`. -/
  | usleep (usecs : Nat)
  deriving DecidableEq

/-- Whether an external operation is a transport call (a write or a read). -/
def BusOp.isTransport : BusOp → Bool
  | .write _ _ _ _ => true
  | .read _ _ _ _ => true
  | .usleep _ => false

/-- The six bytes that `mgos_i2c_read` stores in `data[6]`. -/
structure Payload where
  b0 : Nat
  b1 : Nat
  b2 : Nat
  b3 : Nat
  b4 : Nat
  b5 : Nat
  deriving DecidableEq

/-- Every element of the payload is a byte. -/
def Payload.wf (p : Payload) : Prop :=
  p.b0 < 256 ∧ p.b1 < 256 ∧ p.b2 < 256 ∧ p.b3 < 256 ∧ p.b4 < 256 ∧ p.b5 < 256

instance (p : Payload) : Decidable p.wf := by
  unfold Payload.wf; infer_instance

/-- The payload with bit `k` of byte `i` inverted (bytes 0 to 5; any other
index leaves the payload as it is). -/
def Payload.flipBit (p : Payload) (i k : Nat) : Payload :=
  match i with
  | 0 => { p with b0 := p.b0 ^^^ 2 ^ k }
  | 1 => { p with b1 := p.b1 ^^^ 2 ^ k }
  | 2 => { p with b2 := p.b2 ^^^ 2 ^ k }
  | 3 => { p with b3 := p.b3 ^^^ 2 ^ k }
  | 4 => { p with b4 := p.b4 ^^^ 2 ^ k }
  | 5 => { p with b5 := p.b5 ^^^ 2 ^ k }
  | _ => p

/-- What the environment answers during one call of `mgos_htu31d_read`:
`start` is the first `mg_time()` (line 103), `conv_ok` and `fetch_ok` are the
results of the two `mgos_i2c_write` calls made through `mgos_htu31d_cmd`,
`data` is the result of `mgos_i2c_read` (`none` when it returns false) and
`finish` is the second `mg_time()` (line 167). -/
structure ReadEnv where
  start : ℚ
  conv_ok : Bool
  fetch_ok : Bool
  data : Option Payload
  finish : ℚ
  deriving DecidableEq

/-- Result of a call: the returned boolean, the session after the call and
the external operations performed. -/
structure ReadResult where
  ret : Bool
  sensor : Option mgos_htu31d
  trace : List BusOp
  deriving DecidableEq

/-! ## Private functions -/

/-- The function `mgos_htu31d_cmd` (lines 20-33): returns false without writing when the
session or its transport is absent, otherwise writes the single byte `cmd`
and returns the result `write_ok` of that write. -/
def mgos_htu31d_cmd (sensor : Option mgos_htu31d) (cmd : Nat) (write_ok : Bool) :
    Bool × List BusOp :=
  match sensor with
  | none => (false, [])
  | some s =>
    match s.i2c with
    | none => (false, [])
    | some h =>
      if !write_ok then (false, [BusOp.write h s.i2caddr [cmd % 256] true])
      else (true, [BusOp.write h s.i2caddr [cmd % 256] true])

/-- One iteration of the inner loop of `crc8` (line 42), with the assignment
to the `uint8_t` register as a reduction modulo 256. -/
def crc8_bit (crc : Nat) : Nat :=
  if crc &&& 0x80 ≠ 0 then ((crc <<< 1) ^^^ 0x31) % 256 else (crc <<< 1) % 256

/-- The inner loop of `crc8` (line 41): `i` iterations. -/
def crc8_inner : Nat → Nat → Nat
  | 0, crc => crc
  | i + 1, crc => crc8_inner i (crc8_bit crc)

/-- The outer loop of `crc8` (lines 39-44) over the `len` bytes at `data`,
starting from the register value `crc`. -/
def crc8_loop : List Nat → Nat → Nat
  | [], crc => crc
  | d :: ds, crc => crc8_loop ds (crc8_inner 8 ((crc ^^^ d) % 256))

/-- The function `crc8(data, len)` (lines 35-49); the list holds the `len` bytes read. -/
def crc8 (data : List Nat) : Nat :=
  crc8_loop data 0x00

/-! ## Public functions -/

/-- The `uint16_t` raw value `(hi << 8) + lo` (lines 144, 157). -/
def raw16 (hi lo : Nat) : Nat :=
  ((hi <<< 8) + lo) % 65536

/-- Lines 145-149: the temperature computed from the raw value. -/
def convTemperature (raw : Nat) : ℚ :=
  (raw : ℚ) / 65535 * 165 - 40

/-- Lines 158-160: the humidity computed from the raw value. -/
def convHumidity (raw : Nat) : ℚ :=
  (raw : ℚ) / 65535 * 100

/-- The function `mgos_htu31d_read` (lines 102-170).  The session argument
is `none` for a null pointer; the session in the result is the state of the
pointed-to record after the call. -/
def mgos_htu31d_read (env : ReadEnv) (sensor : Option mgos_htu31d) : ReadResult :=
  let start := env.start
  match sensor with
  | none => ⟨false, none, []⟩
  | some s0 =>
    match s0.i2c with
    | none => ⟨false, some s0, []⟩
    | some h =>
      -- sensor->stats.read++
      let s1 := { s0 with stats := { s0.stats with read := (s0.stats.read + 1) % 2 ^ 32 } }
      if start - s1.stats.last_read_time < MGOS_HTU31D_READ_DELAY then
        let s2 := { s1 with stats := { s1.stats with
          read_success_cached := (s1.stats.read_success_cached + 1) % 2 ^ 32 } }
        ⟨true, some s2, []⟩
      else
        let t1 := (mgos_htu31d_cmd (some s1) MGOS_HTU31D_CONVERSION env.conv_ok).2
          ++ [BusOp.usleep 20000]
        let t2 := t1 ++ (mgos_htu31d_cmd (some s1) MGOS_HTU31D_READTEMPHUM env.fetch_ok).2
          ++ [BusOp.usleep 20000] ++ [BusOp.read h s1.i2caddr 6 true]
        match env.data with
        | none => ⟨false, some s1, t2⟩
        | some data =>
          let tmp0 := data.b0
          let tmp1 := data.b1
          let tmp2 := data.b2
          let hum0 := data.b3
          let hum1 := data.b4
          let hum2 := data.b5
          if tmp2 ≠ crc8 [data.b0, data.b1] then ⟨false, some s1, t2⟩
          else
            let temp := raw16 tmp0 tmp1
            let temperature := convTemperature temp
            -- sensor->temperature = temperature (line 150)
            let s2 := { s1 with temperature := temperature }
            if hum2 ≠ crc8 [hum0, hum1] then ⟨false, some s2, t2⟩
            else
              let hmdty := raw16 hum0 hum1
              let humidity := convHumidity hmdty
              let s3 := { s2 with humidity := humidity }
              let s4 := { s3 with stats := { s3.stats with
                read_success := (s3.stats.read_success + 1) % 2 ^ 32 } }
              let s5 := { s4 with stats := { s4.stats with
                read_success_usecs :=
                  s4.stats.read_success_usecs + 1000000 * (env.finish - start) } }
              let s6 := { s5 with stats := { s5.stats with last_read_time := start } }
              ⟨true, some s6, t2⟩

/-- What the environment answers during one call of `mgos_htu31d_create`:
`alloc_ok` tells whether `calloc` returns memory, `reset_ok` and `readreg_ok`
are the results of the two `mgos_i2c_write` calls, `version` is the result of
the 4-byte `mgos_i2c_read` (`none` when it returns false, otherwise the
`uint32_t` stored in `version`). -/
structure CreateEnv where
  alloc_ok : Bool
  reset_ok : Bool
  readreg_ok : Bool
  version : Option Nat
  deriving DecidableEq

/-- The function `mgos_htu31d_create` (lines 54-90): the session, or `none` for `NULL`,
and the external operations performed.  `i2caddr` is a `uint8_t` argument. -/
def mgos_htu31d_create (env : CreateEnv) (i2c : Option Nat) (i2caddr : Nat) :
    Option mgos_htu31d × List BusOp :=
  match i2c with
  | none => (none, [])
  | some h =>
    if !env.alloc_ok then (none, [])
    else
      -- calloc + memset: every field zero, then the address and the handle
      let sensor : mgos_htu31d :=
        { i2c := some h, i2caddr := i2caddr,
          stats := { last_read_time := 0, read := 0, read_success := 0,
                     read_success_cached := 0, read_success_usecs := 0 },
          humidity := 0, temperature := 0 }
      let t1 := (mgos_htu31d_cmd (some sensor) MGOS_HTU31D_RESET env.reset_ok).2
        ++ [BusOp.usleep 15000]
      let t2 := t1 ++ (mgos_htu31d_cmd (some sensor) MGOS_HTU31D_READREG env.readreg_ok).2
        ++ [BusOp.read h sensor.i2caddr 4 true]
      match env.version with
      | none => (none, t2)
      | some version =>
        if version % 2 ^ 32 ≠ 0 then (some sensor, t2) else (none, t2)

/-- The function `mgos_htu31d_destroy` (lines 92-100) applied to the caller's
handle `*sensor` (`none` is the null pointer): the handle after the call,
whether `free` was called, and the external operations performed. -/
def mgos_htu31d_destroy (handle : Option mgos_htu31d) :
    Option mgos_htu31d × Bool × List BusOp :=
  match handle with
  | none => (none, false, [])
  | some _ => (none, true, [])

/-- Result of an accessor returning `float`: `value` is `none` for `NAN`. -/
structure GetResult where
  value : Option ℚ
  sensor : Option mgos_htu31d
  trace : List BusOp
  deriving DecidableEq

/-- The function `mgos_htu31d_getTemperature` (lines 172-178). -/
def mgos_htu31d_getTemperature (env : ReadEnv) (sensor : Option mgos_htu31d) : GetResult :=
  let r := mgos_htu31d_read env sensor
  if !r.ret then { value := none, sensor := r.sensor, trace := r.trace }
  else
    match r.sensor with
    | some s => { value := some s.temperature, sensor := r.sensor, trace := r.trace }
    -- not reached: the read returns false for a null session
    | none => { value := none, sensor := r.sensor, trace := r.trace }

/-- The function `mgos_htu31d_getHumidity` (lines 180-186). -/
def mgos_htu31d_getHumidity (env : ReadEnv) (sensor : Option mgos_htu31d) : GetResult :=
  let r := mgos_htu31d_read env sensor
  if !r.ret then { value := none, sensor := r.sensor, trace := r.trace }
  else
    match r.sensor with
    | some s => { value := some s.humidity, sensor := r.sensor, trace := r.trace }
    -- not reached: the read returns false for a null session
    | none => { value := none, sensor := r.sensor, trace := r.trace }

/-- The function `mgos_htu31d_setHeater` (lines 188-197); `write_ok` is the
result of the `mgos_i2c_write` call, if one is made.  No field of the session
is assigned. -/
def mgos_htu31d_setHeater (write_ok : Bool) (sensor : Option mgos_htu31d) (state : Bool) :
    ReadResult :=
  let cmd := if state then MGOS_HTU31D_HEATERON else MGOS_HTU31D_HEATEROFF
  let r := mgos_htu31d_cmd sensor cmd write_ok
  { ret := r.1, sensor := sensor, trace := r.2 }

/-- Result of `mgos_htu31d_getStats`: the returned boolean, the content of
the caller's record `*stats` after the call (`none` when the pointer is
null) and the session after the call. -/
structure StatsResult where
  ret : Bool
  stats : Option mgos_htu31d_stats
  sensor : Option mgos_htu31d
  deriving DecidableEq

/-- The function `mgos_htu31d_getStats` (lines 199-208); `stats` is the
caller's record before the call, `none` for a null pointer. -/
def mgos_htu31d_getStats (sensor : Option mgos_htu31d) (stats : Option mgos_htu31d_stats) :
    StatsResult :=
  match sensor, stats with
  | some s, some _ => { ret := true, stats := some s.stats, sensor := sensor }
  | _, _ => { ret := false, stats := stats, sensor := sensor }

/-- One operation of the public interface on a session, with the answers of
the environment during the call. -/
inductive Op where
  | read (env : ReadEnv)
  | getTemperature (env : ReadEnv)
  | getHumidity (env : ReadEnv)
  | setHeater (write_ok : Bool) (state : Bool)
  | getStats (stats : Option mgos_htu31d_stats)

/-- The session after an operation. -/
def Op.run (op : Op) (sensor : Option mgos_htu31d) : Option mgos_htu31d :=
  match op with
  | .read env => (mgos_htu31d_read env sensor).sensor
  | .getTemperature env => (mgos_htu31d_getTemperature env sensor).sensor
  | .getHumidity env => (mgos_htu31d_getHumidity env sensor).sensor
  | .setHeater write_ok state => (mgos_htu31d_setHeater write_ok sensor state).sensor
  | .getStats stats => (mgos_htu31d_getStats sensor stats).sensor

/-! ## Sequences of calls -/

/-- A sequence of `mgos_htu31d_read` calls on one session, one environment
record per call: the session after the last call and the number of calls
that returned false. -/
def read_seq : List ReadEnv → Option mgos_htu31d → Option mgos_htu31d × Nat
  | [], sensor => (sensor, 0)
  | env :: envs, sensor =>
    let r := mgos_htu31d_read env sensor
    let rest := read_seq envs r.sensor
    (rest.1, (if r.ret then 0 else 1) + rest.2)

/-! ## Polynomials over GF(2)

A polynomial over GF(2) is coded by the natural number whose bit `i` is the
coefficient of `x^i`; addition of polynomials is `^^^`, multiplication by `x`
is doubling. -/

/-- The generator `x^8 + x^5 + x^4 + 1` (polynomial 0x31 with its leading
term). -/
def crcPoly : Nat := 0x131

/-- Product of the polynomials coded by `a` and `b`, by the bits of `a` from
the lowest; the first argument bounds the number of bits of `a` looked at. -/
def gf2MulAux : Nat → Nat → Nat → Nat
  | 0, _, _ => 0
  | n + 1, a, b => (if a % 2 = 1 then b else 0) ^^^ 2 * gf2MulAux n (a / 2) b

/-- Product over GF(2) of the polynomials coded by `a` and `b` (`a` has at
most `a` bits). -/
def gf2Mul (a b : Nat) : Nat :=
  gf2MulAux a a b

/-- Long division over GF(2) by the polynomial `p` of degree `d`: for
`k` counting down, the term `x^(d+k)` of the dividend is cancelled by adding
`x^k * p`. -/
def gf2ModAux (p d : Nat) : Nat → Nat → Nat
  | 0, a => a
  | k + 1, a => gf2ModAux p d k (if a.testBit (d + k) then a ^^^ (p <<< k) else a)

/-- Remainder over GF(2) of the polynomial coded by `a`, of degree below
`d + n`, divided by the polynomial coded by `p`, of degree `d`. -/
def gf2Mod (a p d n : Nat) : Nat :=
  gf2ModAux p d n a

/-- The message polynomial: the bytes in order, each most significant bit
first, as coefficients from the highest degree down. -/
def msgPoly (data : List Nat) : Nat :=
  data.foldl (fun acc b => acc * 256 + b) 0

/-- The CRC-8 of the specification: polynomial 0x31, initial value 0x00, most
significant bit first, no reflection, no final XOR, which is the remainder of
the message polynomial times `x^8` divided by `x^8 + x^5 + x^4 + 1`. -/
def crc8_spec (data : List Nat) : Nat :=
  gf2Mod (msgPoly data * 2 ^ 8) crcPoly 8 (8 * data.length)

/-- The number `m` codes a multiple of the polynomial coded by `p`: some
polynomial `q` has `q * p = m` over GF(2). -/
def gf2Dvd (p m : Nat) : Prop :=
  ∃ q, gf2Mul q p = m

/-! ## Concrete inputs used in the examples -/

/-- A session that holds a sample taken at time 0: 25 degrees, 50 percent. -/
def exSession : mgos_htu31d :=
  { i2c := some 0, i2caddr := 0x40,
    stats := { last_read_time := 0, read := 1, read_success := 1,
               read_success_cached := 0, read_success_usecs := 41000 },
    humidity := 50, temperature := 25 }

/-- A response with two valid triples (the checksum examples 0x683A / 0x7C and
0x4E85 / 0x6B of the sensor family). -/
def exPayload : Payload :=
  { b0 := 0x68, b1 := 0x3A, b2 := 0x7C, b3 := 0x4E, b4 := 0x85, b5 := 0x6B }

/-- A call at time 10 that receives `exPayload`. -/
def exEnvGood : ReadEnv :=
  { start := 10, conv_ok := true, fetch_ok := true, data := some exPayload, finish := 11 }

/-- A call at time 10 whose response has a valid temperature triple (0, 0, 0)
and a humidity triple (0, 0, 1) with a wrong checksum. -/
def exEnvHumBad : ReadEnv :=
  { start := 10, conv_ok := true, fetch_ok := true,
    data := some { b0 := 0, b1 := 0, b2 := 0, b3 := 0, b4 := 0, b5 := 1 }, finish := 11 }

/-- A call at time 10 whose response has a wrong temperature checksum. -/
def exEnvTempBad : ReadEnv :=
  { start := 10, conv_ok := true, fetch_ok := true,
    data := some { b0 := 0x68, b1 := 0x3A, b2 := 0x7D, b3 := 0x4E, b4 := 0x85, b5 := 0x6B },
    finish := 11 }

/-- A call at time 10 whose 6-byte transport read fails. -/
def exEnvReadFail : ReadEnv :=
  { start := 10, conv_ok := true, fetch_ok := true, data := none, finish := 11 }

/-- A call at time 10 whose two command writes fail while the 6-byte read
succeeds with six zero bytes. -/
def exEnvWriteFail : ReadEnv :=
  { start := 10, conv_ok := false, fetch_ok := false,
    data := some { b0 := 0, b1 := 0, b2 := 0, b3 := 0, b4 := 0, b5 := 0 }, finish := 11 }

/-- A call at time 1, inside the cache window of `exSession`. -/
def exEnvEarly : ReadEnv :=
  { start := 1, conv_ok := true, fetch_ok := true, data := none, finish := 1 }

/-- A call at time 5/2 that receives six zero bytes. -/
def exEnvLater : ReadEnv :=
  { start := 5 / 2, conv_ok := true, fetch_ok := true,
    data := some { b0 := 0, b1 := 0, b2 := 0, b3 := 0, b4 := 0, b5 := 0 }, finish := 3 }

/-- A call at time 11 (one second after `exEnvGood`). -/
def exEnvSoon : ReadEnv :=
  { start := 11, conv_ok := true, fetch_ok := true, data := none, finish := 11 }

/-- The answers of a successful `mgos_htu31d_create`. -/
def exCreateEnv : CreateEnv :=
  { alloc_ok := true, reset_ok := true, readreg_ok := true, version := some 0x12345678 }

/-- The session returned by `mgos_htu31d_create` for the handle 0 and the
address 0x40. -/
def exFresh : mgos_htu31d :=
  { i2c := some 0, i2caddr := 0x40,
    stats := { last_read_time := 0, read := 0, read_success := 0,
               read_success_cached := 0, read_success_usecs := 0 },
    humidity := 0, temperature := 0 }

/-- A call at time 10 that receives six zero bytes. -/
def exEnvZeros : ReadEnv :=
  { start := 10, conv_ok := true, fetch_ok := true,
    data := some { b0 := 0, b1 := 0, b2 := 0, b3 := 0, b4 := 0, b5 := 0 }, finish := 11 }

/-- A session whose counter `read` holds the largest `uint32_t`. -/
def exSessionMax : mgos_htu31d :=
  { i2c := some 0, i2caddr := 0x40,
    stats := { last_read_time := 0, read := 4294967295, read_success := 1,
               read_success_cached := 4294967293, read_success_usecs := 41000 },
    humidity := 50, temperature := 25 }

/-! # Theorems -/

/-! ## The read operation -/

/-- The checksum of two zero bytes is zero. -/
theorem crc8_zero_zero : crc8 [0, 0] = 0 := by decide

/-- C1 (the code departs from the claim): with the session `exSession`
(temperature 25, humidity 50) and a response whose temperature triple is
valid and whose humidity triple has a wrong checksum, `mgos_htu31d_read`
returns false, yet the temperature field has become -40 while the humidity
field still holds 50: line 150 stores the temperature before the humidity
checksum is tested. -/
theorem read_humidity_crc_failure_overwrites_temperature :
    (0 : Nat) = crc8 [0, 0] ∧ (1 : Nat) ≠ crc8 [0, 0] ∧
    (mgos_htu31d_read exEnvHumBad (some exSession)).ret = false ∧
    (mgos_htu31d_read exEnvHumBad (some exSession)).sensor
      = some { exSession with
          temperature := -40,
          stats := { exSession.stats with read := 2 } } ∧
    exSession.temperature = 25 ∧ exSession.humidity = 50 := by
  refine ⟨by decide, by decide, ?_, ?_, rfl, rfl⟩
  · simp [mgos_htu31d_read, exSession, exEnvHumBad, MGOS_HTU31D_READ_DELAY, crc8_zero_zero]
    norm_num
  · simp [mgos_htu31d_read, exSession, exEnvHumBad, MGOS_HTU31D_READ_DELAY, crc8_zero_zero,
      raw16, convTemperature]
    norm_num

/-- C2: for a session with a transport whose last read time is at least two
seconds before the start of the call, and a 6-byte response whose two
checksum bytes match, `mgos_htu31d_read` returns true; afterwards the
temperature is `((256*b0 + b1) / 65535) * 165 - 40`, the humidity is
`((256*b3 + b4) / 65535) * 100`, the counters `read_success` and `read` are
incremented by one (as `uint32_t`), `read_success_cached` is unchanged, the
last read time is the start of the call, and the elapsed microseconds are
added to `read_success_usecs`. -/
theorem read_success_commits_sample (s : mgos_htu31d) (h : Nat) (env : ReadEnv) (p : Payload)
    (hi2c : s.i2c = some h)
    (hstale : s.stats.last_read_time + 2 ≤ env.start)
    (hdata : env.data = some p) (hwf : p.wf)
    (hc1 : p.b2 = crc8 [p.b0, p.b1]) (hc2 : p.b5 = crc8 [p.b3, p.b4]) :
    (mgos_htu31d_read env (some s)).ret = true ∧
    ∃ s1, (mgos_htu31d_read env (some s)).sensor = some s1 ∧
      s1.temperature = ((256 * (p.b0 : ℚ) + (p.b1 : ℚ)) / 65535) * 165 - 40 ∧
      s1.humidity = ((256 * (p.b3 : ℚ) + (p.b4 : ℚ)) / 65535) * 100 ∧
      s1.stats.read_success = (s.stats.read_success + 1) % 2 ^ 32 ∧
      s1.stats.read = (s.stats.read + 1) % 2 ^ 32 ∧
      s1.stats.read_success_cached = s.stats.read_success_cached ∧
      s1.stats.last_read_time = env.start ∧
      s1.stats.read_success_usecs
        = s.stats.read_success_usecs + 1000000 * (env.finish - env.start) := by
  obtain ⟨h0, h1, -, h3, h4, -⟩ := hwf
  have hwin : ¬ (env.start - s.stats.last_read_time < MGOS_HTU31D_READ_DELAY) := by
    unfold MGOS_HTU31D_READ_DELAY; linarith
  have r1 : raw16 p.b0 p.b1 = 256 * p.b0 + p.b1 := by
    unfold raw16; rw [Nat.shiftLeft_eq]; omega
  have r2 : raw16 p.b3 p.b4 = 256 * p.b3 + p.b4 := by
    unfold raw16; rw [Nat.shiftLeft_eq]; omega
  simp [mgos_htu31d_read, hi2c, hwin, hdata, ← hc1, ← hc2, r1, r2, convTemperature,
    convHumidity]

/-- Witness of C2: the call `exEnvGood` on `exSession`. -/
theorem read_success_commits_sample_witness :
    (mgos_htu31d_read exEnvGood (some exSession)).ret = true ∧
    ∃ s1, (mgos_htu31d_read exEnvGood (some exSession)).sensor = some s1 ∧
      s1.temperature = ((256 * (exPayload.b0 : ℚ) + (exPayload.b1 : ℚ)) / 65535) * 165 - 40 ∧
      s1.humidity = ((256 * (exPayload.b3 : ℚ) + (exPayload.b4 : ℚ)) / 65535) * 100 ∧
      s1.stats.read_success = (exSession.stats.read_success + 1) % 2 ^ 32 ∧
      s1.stats.read = (exSession.stats.read + 1) % 2 ^ 32 ∧
      s1.stats.read_success_cached = exSession.stats.read_success_cached ∧
      s1.stats.last_read_time = exEnvGood.start ∧
      s1.stats.read_success_usecs
        = exSession.stats.read_success_usecs
          + 1000000 * (exEnvGood.finish - exEnvGood.start) :=
  read_success_commits_sample exSession 0 exEnvGood exPayload rfl
    (by norm_num [exSession, exEnvGood]) rfl (by decide) (by decide) (by decide)

/-- C3: for a session outside its cache window and a 6-byte response whose
byte 2 differs from the checksum of bytes 0 and 1, `mgos_htu31d_read` returns
false and leaves temperature and humidity as they were; bytes 3 to 5 have no
influence on the result of the call. -/
theorem read_temperature_crc_mismatch_rejects (s : mgos_htu31d) (env : ReadEnv) (p : Payload)
    (hwin : ¬ (env.start - s.stats.last_read_time < MGOS_HTU31D_READ_DELAY))
    (hdata : env.data = some p)
    (hcrc : p.b2 ≠ crc8 [p.b0, p.b1]) :
    (mgos_htu31d_read env (some s)).ret = false ∧
    (∃ s1, (mgos_htu31d_read env (some s)).sensor = some s1 ∧
      s1.temperature = s.temperature ∧ s1.humidity = s.humidity) ∧
    ∀ b3 b4 b5 : Nat,
      mgos_htu31d_read { env with data := some { p with b3 := b3, b4 := b4, b5 := b5 } } (some s)
        = mgos_htu31d_read env (some s) := by
  cases hi2c : s.i2c with
  | none => simp [mgos_htu31d_read, hi2c]
  | some h => simp [mgos_htu31d_read, hi2c, hwin, hdata, hcrc]

/-- Witness of C3: the call `exEnvTempBad` on `exSession`. -/
theorem read_temperature_crc_mismatch_rejects_witness :
    (mgos_htu31d_read exEnvTempBad (some exSession)).ret = false ∧
    (∃ s1, (mgos_htu31d_read exEnvTempBad (some exSession)).sensor = some s1 ∧
      s1.temperature = exSession.temperature ∧ s1.humidity = exSession.humidity) :=
  have h := read_temperature_crc_mismatch_rejects exSession exEnvTempBad
    { b0 := 0x68, b1 := 0x3A, b2 := 0x7D, b3 := 0x4E, b4 := 0x85, b5 := 0x6B }
    (by norm_num [exSession, exEnvTempBad, MGOS_HTU31D_READ_DELAY]) rfl (by decide)
  ⟨h.1, h.2.1⟩

/-- C4: for a session with a transport, a call that starts less than
`MGOS_HTU31D_READ_DELAY` seconds after the last read time returns true,
performs no external operation, increments `read` and `read_success_cached`
by one (as `uint32_t`) and leaves temperature, humidity, `read_success`,
`read_success_usecs` and `last_read_time` unchanged. -/
theorem read_cached_within_delay (s : mgos_htu31d) (h : Nat) (env : ReadEnv)
    (hi2c : s.i2c = some h)
    (hwin : env.start - s.stats.last_read_time < MGOS_HTU31D_READ_DELAY) :
    (mgos_htu31d_read env (some s)).ret = true ∧
    (mgos_htu31d_read env (some s)).trace = [] ∧
    ∃ s1, (mgos_htu31d_read env (some s)).sensor = some s1 ∧
      s1.stats.read = (s.stats.read + 1) % 2 ^ 32 ∧
      s1.stats.read_success_cached = (s.stats.read_success_cached + 1) % 2 ^ 32 ∧
      s1.temperature = s.temperature ∧ s1.humidity = s.humidity ∧
      s1.stats.read_success = s.stats.read_success ∧
      s1.stats.read_success_usecs = s.stats.read_success_usecs ∧
      s1.stats.last_read_time = s.stats.last_read_time := by
  simp [mgos_htu31d_read, hi2c, hwin]

/-- Witness of C4: the call `exEnvEarly` (time 1) on `exSession` (last read
at time 0). -/
theorem read_cached_within_delay_witness :
    (mgos_htu31d_read exEnvEarly (some exSession)).ret = true ∧
    (mgos_htu31d_read exEnvEarly (some exSession)).trace = [] :=
  have h := read_cached_within_delay exSession 0 exEnvEarly rfl
    (by norm_num [exSession, exEnvEarly, MGOS_HTU31D_READ_DELAY])
  ⟨h.1, h.2.1⟩

/-- Counterexample to C5 as stated: on `exSession` (last sample at time 0) a
first call at time 1 is served from the cache, and a second call at time
5/2, less than two seconds after the first, is outside the cache window: it
performs the two writes and the read, replaces temperature 25 and humidity
50 by -40 and 0, increments `read_success` and leaves `read_success_cached`
as it was. -/
theorem read_twice_within_delay_counterexample :
    exEnvLater.start - exEnvEarly.start < MGOS_HTU31D_READ_DELAY ∧
    mgos_htu31d_read exEnvEarly (some exSession)
      = { ret := true,
          sensor := some { exSession with
            stats := { exSession.stats with read := 2, read_success_cached := 1 } },
          trace := [] } ∧
    mgos_htu31d_read exEnvLater (mgos_htu31d_read exEnvEarly (some exSession)).sensor
      = { ret := true,
          sensor := some
            { i2c := some 0, i2caddr := 0x40,
              stats := { last_read_time := 5 / 2, read := 3, read_success := 2,
                         read_success_cached := 1, read_success_usecs := 541000 },
              humidity := 0, temperature := -40 },
          trace := [BusOp.write 0 0x40 [0x40] true, BusOp.usleep 20000,
                    BusOp.write 0 0x40 [0x00] true, BusOp.usleep 20000,
                    BusOp.read 0 0x40 6 true] } := by
  have e1 : mgos_htu31d_read exEnvEarly (some exSession)
      = { ret := true,
          sensor := some { exSession with
            stats := { exSession.stats with read := 2, read_success_cached := 1 } },
          trace := [] } := by
    simp [mgos_htu31d_read, exSession, exEnvEarly, MGOS_HTU31D_READ_DELAY]
  refine ⟨by norm_num [exEnvLater, exEnvEarly, MGOS_HTU31D_READ_DELAY], e1, ?_⟩
  rw [e1]
  simp [mgos_htu31d_read, exSession, exEnvLater, MGOS_HTU31D_READ_DELAY, crc8_zero_zero,
    mgos_htu31d_cmd, MGOS_HTU31D_CONVERSION, MGOS_HTU31D_READTEMPHUM, raw16, convTemperature,
    convHumidity]
  norm_num

/-- C5 as amended: when the first of two consecutive calls on a session with
a transport is outside the cache window and returns true (a sample was read
and validated), and the second call starts less than
`MGOS_HTU31D_READ_DELAY` seconds after the first, then the second call
returns true, performs no external operation, leaves temperature and
humidity as the first call left them, increments `read_success_cached` by
one (as `uint32_t`) and leaves `read_success` unchanged. -/
theorem read_after_fresh_sample_is_cached (s : mgos_htu31d) (h : Nat) (env1 env2 : ReadEnv)
    (hi2c : s.i2c = some h)
    (hwin1 : ¬ (env1.start - s.stats.last_read_time < MGOS_HTU31D_READ_DELAY))
    (hok1 : (mgos_htu31d_read env1 (some s)).ret = true)
    (hnear : env2.start - env1.start < MGOS_HTU31D_READ_DELAY) :
    ∃ s1 s2, (mgos_htu31d_read env1 (some s)).sensor = some s1 ∧
      mgos_htu31d_read env2 (some s1) = { ret := true, sensor := some s2, trace := [] } ∧
      s2.temperature = s1.temperature ∧ s2.humidity = s1.humidity ∧
      s2.stats.read_success_cached = (s1.stats.read_success_cached + 1) % 2 ^ 32 ∧
      s2.stats.read_success = s1.stats.read_success := by
  simp only [mgos_htu31d_read, hi2c, hwin1, if_false] at hok1 ⊢
  cases hd : env1.data with
  | none => simp [hd] at hok1
  | some p =>
    simp only [hd] at hok1 ⊢
    split_ifs at hok1 ⊢
    simp_all

/-- Witness of C5 as amended: `exEnvGood` at time 10 followed by `exEnvSoon`
at time 11 on `exSession`. -/
theorem read_after_fresh_sample_is_cached_witness :
    ∃ s1 s2, (mgos_htu31d_read exEnvGood (some exSession)).sensor = some s1 ∧
      mgos_htu31d_read exEnvSoon (some s1) = { ret := true, sensor := some s2, trace := [] } ∧
      s2.temperature = s1.temperature ∧ s2.humidity = s1.humidity ∧
      s2.stats.read_success_cached = (s1.stats.read_success_cached + 1) % 2 ^ 32 ∧
      s2.stats.read_success = s1.stats.read_success :=
  read_after_fresh_sample_is_cached exSession 0 exEnvGood exEnvSoon rfl
    (by norm_num [exSession, exEnvGood, MGOS_HTU31D_READ_DELAY])
    (by
      have e1 : crc8 [0x68, 0x3A] = 0x7C := by decide
      have e2 : crc8 [0x4E, 0x85] = 0x6B := by decide
      simp [mgos_htu31d_read, exSession, exEnvGood, exPayload, MGOS_HTU31D_READ_DELAY, e1, e2]
      norm_num)
    (by norm_num [exEnvSoon, exEnvGood, MGOS_HTU31D_READ_DELAY])

/-- Counterexample to C6 as stated: in the call `exEnvWriteFail` on
`exSession`, outside the cache window, both command writes fail, the 6-byte
read succeeds with six zero bytes, and `mgos_htu31d_read` returns true with
the sample -40 / 0 committed: the result of `mgos_htu31d_cmd` is not looked
at (lines 117 and 125). -/
theorem read_ignores_write_failure_counterexample :
    ¬ (exEnvWriteFail.start - exSession.stats.last_read_time < MGOS_HTU31D_READ_DELAY) ∧
    exEnvWriteFail.conv_ok = false ∧ exEnvWriteFail.fetch_ok = false ∧
    (mgos_htu31d_cmd (some exSession) MGOS_HTU31D_CONVERSION exEnvWriteFail.conv_ok).1 = false ∧
    mgos_htu31d_read exEnvWriteFail (some exSession)
      = { ret := true,
          sensor := some
            { i2c := some 0, i2caddr := 0x40,
              stats := { last_read_time := 10, read := 2, read_success := 2,
                         read_success_cached := 0, read_success_usecs := 1041000 },
              humidity := 0, temperature := -40 },
          trace := [BusOp.write 0 0x40 [0x40] true, BusOp.usleep 20000,
                    BusOp.write 0 0x40 [0x00] true, BusOp.usleep 20000,
                    BusOp.read 0 0x40 6 true] } := by
  refine ⟨by norm_num [exSession, exEnvWriteFail, MGOS_HTU31D_READ_DELAY], rfl, rfl, ?_, ?_⟩
  · simp [mgos_htu31d_cmd, exSession, exEnvWriteFail]
  · simp [mgos_htu31d_read, exSession, exEnvWriteFail, MGOS_HTU31D_READ_DELAY, crc8_zero_zero,
      mgos_htu31d_cmd, MGOS_HTU31D_CONVERSION, MGOS_HTU31D_READTEMPHUM, raw16, convTemperature,
      convHumidity]
    norm_num

/-- C6 as amended: for a session with a transport outside its cache window,
if the 6-byte transport read fails then `mgos_htu31d_read` returns false;
the results of the two command writes (0x40 and 0x00) are not looked at: the
returned boolean and the session after the call are the same whatever those
two results are. -/
theorem read_fails_on_transport_read_failure (s : mgos_htu31d) (h : Nat) (env : ReadEnv)
    (hi2c : s.i2c = some h)
    (hwin : ¬ (env.start - s.stats.last_read_time < MGOS_HTU31D_READ_DELAY)) :
    (env.data = none → (mgos_htu31d_read env (some s)).ret = false) ∧
    ∀ a b : Bool,
      (mgos_htu31d_read { env with conv_ok := a, fetch_ok := b } (some s)).ret
        = (mgos_htu31d_read env (some s)).ret ∧
      (mgos_htu31d_read { env with conv_ok := a, fetch_ok := b } (some s)).sensor
        = (mgos_htu31d_read env (some s)).sensor := by
  refine ⟨fun hd => by simp [mgos_htu31d_read, hi2c, hwin, hd], fun a b => ?_⟩
  simp only [mgos_htu31d_read, hi2c, hwin, if_false]
  cases env.data with
  | none => simp
  | some p =>
    simp only []
    split_ifs <;> simp

/-- Witness of C6 as amended: the call `exEnvReadFail` on `exSession`. -/
theorem read_fails_on_transport_read_failure_witness :
    (mgos_htu31d_read exEnvReadFail (some exSession)).ret = false :=
  (read_fails_on_transport_read_failure exSession 0 exEnvReadFail rfl
    (by norm_num [exSession, exEnvReadFail, MGOS_HTU31D_READ_DELAY])).1 rfl

/-- C7: for a session with a transport outside its cache window, if the
6-byte transport read fails then `mgos_htu31d_read` returns false, `read` is
incremented by one (as `uint32_t`), and `read_success`,
`read_success_cached`, `read_success_usecs`, temperature and humidity keep
their values. -/
theorem read_transport_failure_frame (s : mgos_htu31d) (h : Nat) (env : ReadEnv)
    (hi2c : s.i2c = some h)
    (hwin : ¬ (env.start - s.stats.last_read_time < MGOS_HTU31D_READ_DELAY))
    (hdata : env.data = none) :
    (mgos_htu31d_read env (some s)).ret = false ∧
    ∃ s1, (mgos_htu31d_read env (some s)).sensor = some s1 ∧
      s1.stats.read = (s.stats.read + 1) % 2 ^ 32 ∧
      s1.stats.read_success = s.stats.read_success ∧
      s1.stats.read_success_cached = s.stats.read_success_cached ∧
      s1.stats.read_success_usecs = s.stats.read_success_usecs ∧
      s1.temperature = s.temperature ∧ s1.humidity = s.humidity := by
  simp [mgos_htu31d_read, hi2c, hwin, hdata]

/-- Witness of C7: the call `exEnvReadFail` on `exSession`. -/
theorem read_transport_failure_frame_witness :
    (mgos_htu31d_read exEnvReadFail (some exSession)).ret = false ∧
    ∃ s1, (mgos_htu31d_read exEnvReadFail (some exSession)).sensor = some s1 ∧
      s1.stats.read = (exSession.stats.read + 1) % 2 ^ 32 ∧
      s1.stats.read_success = exSession.stats.read_success ∧
      s1.stats.read_success_cached = exSession.stats.read_success_cached ∧
      s1.stats.read_success_usecs = exSession.stats.read_success_usecs ∧
      s1.temperature = exSession.temperature ∧ s1.humidity = exSession.humidity :=
  read_transport_failure_frame exSession 0 exEnvReadFail rfl
    (by norm_num [exSession, exEnvReadFail, MGOS_HTU31D_READ_DELAY]) rfl

/-! ## Statistics -/

/-- One call on a session with a transport: the call is counted, the handle
is kept, and exactly one of success, cached success and failure is counted. -/
theorem read_step_stats (env : ReadEnv) (s : mgos_htu31d) (h : Nat)
    (hi2c : s.i2c = some h) (hread : s.stats.read + 1 < 2 ^ 32)
    (hle : s.stats.read_success + s.stats.read_success_cached ≤ s.stats.read) :
    ∃ s1, (mgos_htu31d_read env (some s)).sensor = some s1 ∧ s1.i2c = some h ∧
      s1.stats.read = s.stats.read + 1 ∧
      s1.stats.read_success + s1.stats.read_success_cached
          + (if (mgos_htu31d_read env (some s)).ret then 0 else 1)
        = s.stats.read_success + s.stats.read_success_cached + 1 := by
  have h1 : (s.stats.read + 1) % 2 ^ 32 = s.stats.read + 1 := Nat.mod_eq_of_lt hread
  have h2 : (s.stats.read_success + 1) % 2 ^ 32 = s.stats.read_success + 1 :=
    Nat.mod_eq_of_lt (by omega)
  have h3 : (s.stats.read_success_cached + 1) % 2 ^ 32 = s.stats.read_success_cached + 1 :=
    Nat.mod_eq_of_lt (by omega)
  by_cases hw : env.start - s.stats.last_read_time < MGOS_HTU31D_READ_DELAY
  · simp [mgos_htu31d_read, hi2c, hw, h1, h3]; omega
  · cases hd : env.data with
    | none => simp [mgos_htu31d_read, hi2c, hw, hd, h1]; omega
    | some p =>
      by_cases hc1 : p.b2 = crc8 [p.b0, p.b1]
      · by_cases hc2 : p.b5 = crc8 [p.b3, p.b4]
        · simp [mgos_htu31d_read, hi2c, hw, hd, ← hc1, ← hc2, h1, h2]; omega
        · simp [mgos_htu31d_read, hi2c, hw, hd, ← hc1, hc2, h1]; omega
      · simp [mgos_htu31d_read, hi2c, hw, hd, hc1, h1]; omega

/-- A sequence of calls on a session with a transport whose `read` counter
cannot reach 2^32: every call is counted once, as a success, as a cached
success or as a failure. -/
theorem read_seq_stats (envs : List ReadEnv) :
    ∀ (s : mgos_htu31d) (h : Nat) (e0 : Nat), s.i2c = some h →
      s.stats.read + envs.length < 2 ^ 32 →
      s.stats.read = s.stats.read_success + s.stats.read_success_cached + e0 →
      ∃ s1, (read_seq envs (some s)).1 = some s1 ∧ s1.i2c = some h ∧
        s1.stats.read = s.stats.read + envs.length ∧
        s1.stats.read
          = s1.stats.read_success + s1.stats.read_success_cached
            + (e0 + (read_seq envs (some s)).2) := by
  induction envs with
  | nil => intro s h e0 hi _ hinv; exact ⟨s, rfl, hi, by simp, by simpa [read_seq] using hinv⟩
  | cons env envs ih =>
    intro s h e0 hi hlen hinv
    simp only [List.length_cons] at hlen
    obtain ⟨s1, hs1, hi1, hr1, hc1⟩ := read_step_stats env s h hi (by omega) (by omega)
    obtain ⟨s2, hs2, hi2, hr2, hc2⟩ := ih s1 h
      (e0 + (if (mgos_htu31d_read env (some s)).ret then 0 else 1)) hi1 (by omega) (by omega)
    refine ⟨s2, ?_, hi2, ?_, ?_⟩
    · simp [read_seq, hs1, hs2]
    · simp only [List.length_cons]; omega
    · simp only [read_seq, hs1]; omega

/-- A session returned by `mgos_htu31d_create` has a transport and zero
counters. -/
theorem create_fresh (cenv : CreateEnv) (i2c : Option Nat) (i2caddr : Nat) (s : mgos_htu31d)
    (hcreate : (mgos_htu31d_create cenv i2c i2caddr).1 = some s) :
    (∃ h, s.i2c = some h) ∧ s.stats.read = 0 ∧ s.stats.read_success = 0 ∧
      s.stats.read_success_cached = 0 := by
  cases i2c with
  | none => simp [mgos_htu31d_create] at hcreate
  | some h =>
    cases ha : cenv.alloc_ok with
    | false => simp [mgos_htu31d_create, ha] at hcreate
    | true =>
      cases hv : cenv.version with
      | none => simp [mgos_htu31d_create, ha, hv] at hcreate
      | some v =>
        by_cases hz : v % 4294967296 = 0
        · simp [mgos_htu31d_create, ha, hv, hz] at hcreate
        · simp [mgos_htu31d_create, ha, hv, hz] at hcreate
          subst hcreate
          exact ⟨⟨h, rfl⟩, rfl, rfl, rfl⟩

/-- C8: for a session returned by `mgos_htu31d_create` and every sequence of
fewer than 2^32 calls of `mgos_htu31d_read`, under any clock readings and
any transport answers, the counters after the last call satisfy
`read = read_success + read_success_cached + E`, where `E` is the number of
calls that returned false; so `read - read_success - read_success_cached`
does not underflow and equals `E`. -/
theorem read_seq_statistics_invariant (cenv : CreateEnv) (i2c : Option Nat) (i2caddr : Nat) (s : mgos_htu31d)
    (envs : List ReadEnv)
    (hcreate : (mgos_htu31d_create cenv i2c i2caddr).1 = some s)
    (hlen : envs.length < 2 ^ 32) :
    ∃ s1, (read_seq envs (some s)).1 = some s1 ∧
      s1.stats.read
        = s1.stats.read_success + s1.stats.read_success_cached + (read_seq envs (some s)).2 ∧
      s1.stats.read - s1.stats.read_success - s1.stats.read_success_cached
        = (read_seq envs (some s)).2 := by
  obtain ⟨⟨h, hi⟩, h0, h1, h2⟩ := create_fresh cenv i2c i2caddr s hcreate
  obtain ⟨s1, hs1, -, -, hc⟩ := read_seq_stats envs s h 0 hi (by omega) (by omega)
  exact ⟨s1, hs1, by omega, by omega⟩

/-- Witness of C8: three calls (served from the cache, successful, failed
transport read) on the session `exFresh` returned by `mgos_htu31d_create`. -/
theorem read_seq_statistics_invariant_witness :
    ∃ s1, (read_seq [exEnvEarly, exEnvGood, exEnvReadFail] (some exFresh)).1 = some s1 ∧
      s1.stats.read
        = s1.stats.read_success + s1.stats.read_success_cached
          + (read_seq [exEnvEarly, exEnvGood, exEnvReadFail] (some exFresh)).2 ∧
      s1.stats.read - s1.stats.read_success - s1.stats.read_success_cached
        = (read_seq [exEnvEarly, exEnvGood, exEnvReadFail] (some exFresh)).2 :=
  read_seq_statistics_invariant exCreateEnv (some 0) 0x40 exFresh
    [exEnvEarly, exEnvGood, exEnvReadFail]
    (by simp [mgos_htu31d_create, exCreateEnv, exFresh]) (by decide)

/-- C9 (the code departs from the claim): the call `exEnvReadFail` on
`exSession` starts at time 10, is not served from the cache (it performs the
two writes and the read), fails, and leaves `last_read_time` at 0 instead of
10: line 168 is reached only on success. -/
theorem read_failure_keeps_last_read_time :
    exEnvReadFail.start = 10 ∧ exSession.stats.last_read_time = 0 ∧
    mgos_htu31d_read exEnvReadFail (some exSession)
      = { ret := false,
          sensor := some
            { i2c := some 0, i2caddr := 0x40,
              stats := { last_read_time := 0, read := 2, read_success := 1,
                         read_success_cached := 0, read_success_usecs := 41000 },
              humidity := 50, temperature := 25 },
          trace := [BusOp.write 0 0x40 [0x40] true, BusOp.usleep 20000,
                    BusOp.write 0 0x40 [0x00] true, BusOp.usleep 20000,
                    BusOp.read 0 0x40 6 true] } := by
  refine ⟨rfl, rfl, ?_⟩
  simp [mgos_htu31d_read, exSession, exEnvReadFail, MGOS_HTU31D_READ_DELAY, mgos_htu31d_cmd,
    MGOS_HTU31D_CONVERSION, MGOS_HTU31D_READTEMPHUM]
  norm_num

/-! ## The checksum -/

/-! ### Bit-level facts -/

theorem shiftLeft_xor (a b k : Nat) : (a ^^^ b) <<< k = a <<< k ^^^ b <<< k := by
  apply Nat.eq_of_testBit_eq
  intro i
  simp only [Nat.testBit_shiftLeft, Nat.testBit_xor]
  cases decide (i ≥ k) <;> simp

theorem mul_two_pow_xor (a b k : Nat) : (a ^^^ b) * 2 ^ k = a * 2 ^ k ^^^ b * 2 ^ k := by
  simpa [Nat.shiftLeft_eq] using shiftLeft_xor a b k

theorem two_mul_xor (a b : Nat) : 2 * (a ^^^ b) = 2 * a ^^^ 2 * b := by
  have := mul_two_pow_xor a b 1
  simpa [Nat.mul_comm] using this

theorem add_eq_xor_of_lt (a : Nat) {b k : Nat} (hb : b < 2 ^ k) :
    a * 2 ^ k + b = a * 2 ^ k ^^^ b := by
  apply Nat.eq_of_testBit_eq
  intro j
  rw [Nat.mul_comm a, Nat.testBit_mul_pow_two_add a hb, Nat.testBit_xor, Nat.testBit_mul_pow_two]
  by_cases hj : j < k
  · have : ¬ (k ≤ j) := by omega
    simp [hj, this]
  · have hk : k ≤ j := by omega
    have hbj : b.testBit j = false :=
      Nat.testBit_lt_two_pow (Nat.lt_of_lt_of_le hb (Nat.pow_le_pow_right (by decide) hk))
    simp [hj, hk, hbj]

/-! ### Products over GF(2) -/

theorem gf2MulAux_zero (n b : Nat) : gf2MulAux n 0 b = 0 := by
  induction n with
  | zero => rfl
  | succ n ih => simp [gf2MulAux, ih]

theorem gf2MulAux_succ_of_lt (b : Nat) :
    ∀ (n a : Nat), a < 2 ^ n → gf2MulAux (n + 1) a b = gf2MulAux n a b := by
  intro n
  induction n with
  | zero =>
    intro a ha
    have : a = 0 := by simpa using ha
    subst this
    simp [gf2MulAux]
  | succ n ih =>
    intro a ha
    have h2 : a / 2 < 2 ^ n := by
      rw [Nat.pow_succ] at ha; omega
    rw [gf2MulAux, ih (a / 2) h2]
    rfl

theorem gf2MulAux_of_le (b : Nat) {n a : Nat} (ha : a < 2 ^ n) :
    ∀ m, n ≤ m → gf2MulAux m a b = gf2MulAux n a b := by
  intro m hm
  induction m with
  | zero =>
    have : n = 0 := by omega
    subst this; rfl
  | succ m ih =>
    by_cases h : n = m + 1
    · subst h; rfl
    · have hnm : n ≤ m := by omega
      rw [gf2MulAux_succ_of_lt b m a
        (Nat.lt_of_lt_of_le ha (Nat.pow_le_pow_right (by decide) hnm))]
      exact ih hnm

theorem gf2Mul_eq_aux (b : Nat) {n a : Nat} (ha : a < 2 ^ n) :
    gf2Mul a b = gf2MulAux n a b := by
  unfold gf2Mul
  rcases Nat.le_total a n with h | h
  · exact (gf2MulAux_of_le b (Nat.lt_two_pow a) n h).symm
  · exact gf2MulAux_of_le b ha a h

theorem gf2MulAux_xor (b : Nat) :
    ∀ (n a c : Nat), gf2MulAux n (a ^^^ c) b = gf2MulAux n a b ^^^ gf2MulAux n c b := by
  intro n
  induction n with
  | zero => intro a c; simp [gf2MulAux]
  | succ n ih =>
    intro a c
    simp only [gf2MulAux, Nat.xor_div_two, ih, two_mul_xor]
    have hbit : (if (a ^^^ c) % 2 = 1 then b else 0)
        = (if a % 2 = 1 then b else 0) ^^^ (if c % 2 = 1 then b else 0) := by
      rcases Nat.mod_two_eq_zero_or_one a with ha | ha <;>
      rcases Nat.mod_two_eq_zero_or_one c with hc | hc <;>
      simp [Nat.xor_mod_two_eq_one, ha, hc] <;> intro h <;> omega
    rw [hbit]
    apply Nat.eq_of_testBit_eq
    intro i
    simp only [Nat.testBit_xor]
    cases Nat.testBit (if a % 2 = 1 then b else 0) i <;>
    cases Nat.testBit (if c % 2 = 1 then b else 0) i <;>
    cases Nat.testBit (2 * gf2MulAux n (a / 2) b) i <;>
    cases Nat.testBit (2 * gf2MulAux n (c / 2) b) i <;> rfl

theorem gf2Mul_xor (a c b : Nat) : gf2Mul (a ^^^ c) b = gf2Mul a b ^^^ gf2Mul c b := by
  have h1 : a < 2 ^ (a + c) :=
    Nat.lt_of_lt_of_le (Nat.lt_two_pow a) (Nat.pow_le_pow_right (by decide) (by omega))
  have h2 : c < 2 ^ (a + c) :=
    Nat.lt_of_lt_of_le (Nat.lt_two_pow c) (Nat.pow_le_pow_right (by decide) (by omega))
  rw [gf2Mul_eq_aux b (Nat.xor_lt_two_pow h1 h2), gf2Mul_eq_aux b h1, gf2Mul_eq_aux b h2,
    gf2MulAux_xor]

theorem gf2Mul_double (a b : Nat) : gf2Mul (2 * a) b = 2 * gf2Mul a b := by
  have h1 : a < 2 ^ a := Nat.lt_two_pow a
  have h2 : 2 * a < 2 ^ (a + 1) := by rw [Nat.pow_succ]; omega
  rw [gf2Mul_eq_aux b h2, gf2Mul_eq_aux b h1, gf2MulAux]
  simp

theorem gf2Mul_one (b : Nat) : gf2Mul 1 b = b := by
  simp [gf2Mul, gf2MulAux]

theorem gf2Mul_zero (b : Nat) : gf2Mul 0 b = 0 := by
  simp [gf2Mul, gf2MulAux]


/-! ### Multiples of a polynomial -/

theorem gf2Dvd_zero (p : Nat) : gf2Dvd p 0 := ⟨0, gf2Mul_zero p⟩

theorem gf2Dvd_self (p : Nat) : gf2Dvd p p := ⟨1, gf2Mul_one p⟩

theorem gf2Dvd_xor {p a b : Nat} (ha : gf2Dvd p a) (hb : gf2Dvd p b) : gf2Dvd p (a ^^^ b) := by
  obtain ⟨q, rfl⟩ := ha
  obtain ⟨r, rfl⟩ := hb
  exact ⟨q ^^^ r, gf2Mul_xor q r p⟩

theorem gf2Dvd_double {p a : Nat} (ha : gf2Dvd p a) : gf2Dvd p (2 * a) := by
  obtain ⟨q, rfl⟩ := ha
  exact ⟨2 * q, gf2Mul_double q p⟩

theorem gf2Dvd_mul_two_pow {p a : Nat} (ha : gf2Dvd p a) (k : Nat) : gf2Dvd p (a * 2 ^ k) := by
  induction k with
  | zero => simpa using ha
  | succ k ih =>
    have : a * 2 ^ (k + 1) = 2 * (a * 2 ^ k) := by rw [Nat.pow_succ]; ring
    rw [this]
    exact gf2Dvd_double ih

theorem gf2Congr_trans {p a b c : Nat} (hab : gf2Dvd p (a ^^^ b)) (hbc : gf2Dvd p (b ^^^ c)) :
    gf2Dvd p (a ^^^ c) := by
  have h := gf2Dvd_xor hab hbc
  have e : a ^^^ b ^^^ (b ^^^ c) = a ^^^ c := by
    rw [Nat.xor_assoc, ← Nat.xor_assoc b b c, Nat.xor_self, Nat.zero_xor]
  rwa [e] at h

/-! ### The register of `crc8` -/

set_option maxRecDepth 100000 in
theorem crc8_bit_spec : ∀ c, c < 256 →
    crc8_bit c < 256 ∧ (crc8_bit c ^^^ 2 * c = 0 ∨ crc8_bit c ^^^ 2 * c = crcPoly) := by
  decide

theorem crc8_bit_lt {c : Nat} (hc : c < 256) : crc8_bit c < 256 := (crc8_bit_spec c hc).1

theorem crc8_bit_congr {c : Nat} (hc : c < 256) : gf2Dvd crcPoly (crc8_bit c ^^^ 2 * c) := by
  rcases (crc8_bit_spec c hc).2 with h | h
  · rw [h]; exact gf2Dvd_zero _
  · rw [h]; exact gf2Dvd_self _

theorem crc8_inner_spec (k : Nat) : ∀ c, c < 256 →
    crc8_inner k c < 256 ∧ gf2Dvd crcPoly (crc8_inner k c ^^^ c * 2 ^ k) := by
  induction k with
  | zero => intro c hc; simpa [crc8_inner] using ⟨hc, gf2Dvd_zero _⟩
  | succ k ih =>
    intro c hc
    obtain ⟨hlt, hdvd⟩ := ih (crc8_bit c) (crc8_bit_lt hc)
    refine ⟨hlt, ?_⟩
    have h2 := gf2Dvd_mul_two_pow (crc8_bit_congr hc) k
    rw [mul_two_pow_xor] at h2
    have e : 2 * c * 2 ^ k = c * 2 ^ (k + 1) := by rw [Nat.pow_succ]; ring
    rw [e] at h2
    exact gf2Congr_trans hdvd h2


/-! ### The message polynomial -/

theorem msgPoly_foldl (ds : List Nat) : ∀ acc : Nat,
    List.foldl (fun acc b => acc * 256 + b) acc ds
      = acc * 2 ^ (8 * ds.length) + List.foldl (fun acc b => acc * 256 + b) 0 ds := by
  induction ds with
  | nil => intro acc; simp
  | cons d ds ih =>
    intro acc
    simp only [List.foldl_cons, List.length_cons]
    rw [ih (acc * 256 + d), ih (0 * 256 + d)]
    have e : 2 ^ (8 * (ds.length + 1)) = 256 * 2 ^ (8 * ds.length) := by
      rw [Nat.mul_add, Nat.pow_add]; norm_num; ring
    rw [e]; ring

theorem msgPoly_cons (d : Nat) (ds : List Nat) :
    msgPoly (d :: ds) = d * 2 ^ (8 * ds.length) + msgPoly ds := by
  unfold msgPoly
  rw [List.foldl_cons, msgPoly_foldl]
  simp

theorem msgPoly_lt (data : List Nat) (hbytes : ∀ b ∈ data, b < 256) :
    msgPoly data < 2 ^ (8 * data.length) := by
  induction data with
  | nil => simp [msgPoly]
  | cons d ds ih =>
    rw [msgPoly_cons]
    have hd : d < 256 := hbytes d (List.mem_cons_self d ds)
    have hds := ih (fun b hb => hbytes b (List.mem_cons_of_mem d hb))
    have e : 2 ^ (8 * (d :: ds).length) = 256 * 2 ^ (8 * ds.length) := by
      rw [List.length_cons, Nat.mul_add, Nat.pow_add]; norm_num; ring
    rw [e]
    have hle : d * 2 ^ (8 * ds.length) ≤ 255 * 2 ^ (8 * ds.length) :=
      Nat.mul_le_mul_right _ (by omega)
    omega

theorem xor_chain (l x y z : Nat) : (l ^^^ (x ^^^ y)) ^^^ (x ^^^ z) = l ^^^ (z ^^^ y) := by
  apply Nat.eq_of_testBit_eq
  intro i
  simp only [Nat.testBit_xor]
  cases Nat.testBit l i <;> cases Nat.testBit x i <;> cases Nat.testBit y i <;>
    cases Nat.testBit z i <;> rfl

theorem crc8_loop_spec (data : List Nat) : ∀ c, c < 256 → (∀ b ∈ data, b < 256) →
    crc8_loop data c < 256 ∧
    gf2Dvd crcPoly
      (crc8_loop data c ^^^ (c * 2 ^ (8 * data.length) ^^^ msgPoly data * 2 ^ 8)) := by
  induction data with
  | nil =>
    intro c hc _
    refine ⟨hc, ?_⟩
    simp only [crc8_loop, List.length_nil, msgPoly, List.foldl_nil, Nat.mul_zero, Nat.pow_zero,
      Nat.mul_one, Nat.zero_mul, Nat.xor_zero, Nat.xor_self]
    exact gf2Dvd_zero _
  | cons d ds ih =>
    intro c hc hbytes
    have hd : d < 256 := hbytes d (List.mem_cons_self d ds)
    have hds : ∀ b ∈ ds, b < 256 := fun b hb => hbytes b (List.mem_cons_of_mem d hb)
    have hx : c ^^^ d < 256 := Nat.xor_lt_two_pow (n := 8) hc hd
    obtain ⟨hlt1, hdvd1⟩ := crc8_inner_spec 8 (c ^^^ d) hx
    obtain ⟨hlt, hdvd⟩ := ih (crc8_inner 8 (c ^^^ d)) hlt1 hds
    have hstep : crc8_loop (d :: ds) c = crc8_loop ds (crc8_inner 8 (c ^^^ d)) := by
      simp only [crc8_loop, Nat.mod_eq_of_lt hx]
    rw [hstep]
    refine ⟨hlt, ?_⟩
    have h1 := gf2Dvd_mul_two_pow hdvd1 (8 * ds.length)
    rw [mul_two_pow_xor] at h1
    have h2 := gf2Dvd_xor hdvd h1
    rw [xor_chain] at h2
    have eK : 8 * (d :: ds).length = 8 * ds.length + 8 := by
      rw [List.length_cons, Nat.mul_add]
    have a1 : ∀ x, x * 2 ^ 8 * 2 ^ (8 * ds.length) = x * 2 ^ (8 * ds.length + 8) := by
      intro x; rw [Nat.mul_assoc, ← Nat.pow_add, Nat.add_comm]
    have a2 : ∀ x, x * 2 ^ (8 * ds.length) * 2 ^ 8 = x * 2 ^ (8 * ds.length + 8) := by
      intro x; rw [Nat.mul_assoc, ← Nat.pow_add]
    have e1 : (c ^^^ d) * 2 ^ 8 * 2 ^ (8 * ds.length)
        = c * 2 ^ (8 * (d :: ds).length) ^^^ d * 2 ^ (8 * ds.length) * 2 ^ 8 := by
      rw [a1, a2, eK, mul_two_pow_xor]
    have e2 : msgPoly (d :: ds) * 2 ^ 8
        = d * 2 ^ (8 * ds.length) * 2 ^ 8 ^^^ msgPoly ds * 2 ^ 8 := by
      rw [msgPoly_cons, add_eq_xor_of_lt d (msgPoly_lt ds hds), mul_two_pow_xor]
    rw [e1, Nat.xor_assoc] at h2
    rw [e2]
    exact h2


/-! ### Long division and uniqueness of the remainder -/

theorem gf2ModAux_spec (p d : Nat) (hp : p < 2 ^ (d + 1)) (hpd : p.testBit d = true) :
    ∀ (k a : Nat), a < 2 ^ (d + k) →
      gf2ModAux p d k a < 2 ^ d ∧ gf2Dvd p (gf2ModAux p d k a ^^^ a) := by
  intro k
  induction k with
  | zero =>
    intro a ha
    simp only [gf2ModAux, Nat.xor_self]
    exact ⟨by simpa using ha, gf2Dvd_zero p⟩
  | succ k ih =>
    intro a ha
    have hhigh : ∀ i, d + k < i → a.testBit i = false := fun i hi =>
      Nat.testBit_lt_two_pow
        (Nat.lt_of_lt_of_le ha (Nat.pow_le_pow_right (by decide) (by omega)))
    have hphigh : ∀ i, d < i → p.testBit i = false := fun i hi =>
      Nat.testBit_lt_two_pow
        (Nat.lt_of_lt_of_le hp (Nat.pow_le_pow_right (by decide) (by omega)))
    simp only [gf2ModAux]
    by_cases hb : a.testBit (d + k) = true
    · simp only [hb, if_true]
      have hlt : a ^^^ p <<< k < 2 ^ (d + k) := by
        apply Nat.lt_pow_two_of_testBit
        intro i hi
        rw [Nat.testBit_xor, Nat.testBit_shiftLeft]
        rcases Nat.eq_or_lt_of_le hi with h | h
        · subst h
          simp [hb, hpd]
        · have h1 : k ≤ i := by omega
          simp [hhigh i h, h1, hphigh (i - k) (by omega)]
      obtain ⟨h1, h2⟩ := ih (a ^^^ p <<< k) hlt
      refine ⟨h1, gf2Congr_trans h2 ?_⟩
      have e : a ^^^ p <<< k ^^^ a = p * 2 ^ k := by
        rw [Nat.xor_comm a, Nat.xor_assoc, Nat.xor_self, Nat.xor_zero, Nat.shiftLeft_eq]
      rw [e]
      exact gf2Dvd_mul_two_pow (gf2Dvd_self p) k
    · have hb2 : a.testBit (d + k) = false := by simpa using hb
      simp only [hb2, Bool.false_eq_true, if_false]
      have hlt : a < 2 ^ (d + k) := by
        apply Nat.lt_pow_two_of_testBit
        intro i hi
        rcases Nat.eq_or_lt_of_le hi with h | h
        · subst h; exact hb2
        · exact hhigh i h
      exact ih a hlt

theorem gf2MulAux_zero_or_ge (p d : Nat) (hp1 : 2 ^ d ≤ p) (hp2 : p < 2 ^ (d + 1)) :
    ∀ (n q : Nat), gf2MulAux n q p = 0 ∨ 2 ^ d ≤ gf2MulAux n q p := by
  intro n
  induction n with
  | zero => intro q; exact Or.inl rfl
  | succ n ih =>
    intro q
    simp only [gf2MulAux]
    rcases ih (q / 2) with hX | hX
    · rw [hX]
      by_cases hq : q % 2 = 1
      · right; simpa [hq] using hp1
      · left; simp [hq]
    · have h2X : 2 ^ (d + 1) ≤ 2 * gf2MulAux n (q / 2) p := by
        rw [Nat.pow_succ]; omega
      by_cases hq : q % 2 = 1
      · right
        simp only [hq, if_true]
        obtain ⟨i, hi, hbit⟩ := Nat.ge_two_pow_implies_high_bit_true h2X
        have hpi : p.testBit i = false :=
          Nat.testBit_lt_two_pow
            (Nat.lt_of_lt_of_le hp2 (Nat.pow_le_pow_right (by decide) hi))
        have hxi : (p ^^^ 2 * gf2MulAux n (q / 2) p).testBit i = true := by
          rw [Nat.testBit_xor, hpi, hbit]; rfl
        have := Nat.testBit_implies_ge hxi
        have h3 : 2 ^ d ≤ 2 ^ i := Nat.pow_le_pow_right (by decide) (by omega)
        omega
      · right
        simp only [hq, if_false, Nat.zero_xor]
        have h3 : 2 ^ d ≤ 2 ^ (d + 1) := Nat.pow_le_pow_right (by decide) (by omega)
        omega

theorem gf2Dvd_eq_zero_of_lt {p d m : Nat} (hp1 : 2 ^ d ≤ p) (hp2 : p < 2 ^ (d + 1))
    (hdvd : gf2Dvd p m) (hm : m < 2 ^ d) : m = 0 := by
  obtain ⟨q, rfl⟩ := hdvd
  rcases gf2MulAux_zero_or_ge p d hp1 hp2 q q with h | h
  · exact h
  · exact absurd hm (by unfold gf2Mul; omega)

theorem gf2Rem_unique {p d a r s : Nat} (hp1 : 2 ^ d ≤ p) (hp2 : p < 2 ^ (d + 1))
    (hr : r < 2 ^ d) (hs : s < 2 ^ d)
    (hra : gf2Dvd p (r ^^^ a)) (hsa : gf2Dvd p (s ^^^ a)) : r = s := by
  have h := gf2Dvd_xor hra hsa
  have e : r ^^^ a ^^^ (s ^^^ a) = r ^^^ s := by
    rw [Nat.xor_comm s a, Nat.xor_assoc, ← Nat.xor_assoc a a s, Nat.xor_self, Nat.zero_xor]
  rw [e] at h
  have hz := gf2Dvd_eq_zero_of_lt hp1 hp2 h (Nat.xor_lt_two_pow hr hs)
  exact Nat.xor_eq_zero.mp hz


/-- C10: for every sequence of bytes, `crc8` is the CRC-8 of the
specification (polynomial 0x31, initial value 0x00, most significant bit
first, no reflection, no final XOR): it equals `crc8_spec`, the remainder of
the long division of the message polynomial times `x^8` by
`x^8 + x^5 + x^4 + 1` over GF(2); it has degree below 8 and differs from the
message polynomial times `x^8` by a multiple `q * (x^8 + x^5 + x^4 + 1)`,
which determines it; the checksum of the empty input is 0x00 and the
checksum of the single byte 0x00 is 0x00. -/
theorem crc8_refines_spec (data : List Nat) (hbytes : ∀ b ∈ data, b < 256) :
    crc8 data = crc8_spec data ∧
    crc8 data < 2 ^ 8 ∧
    (∃ q, gf2Mul q crcPoly ^^^ crc8 data = msgPoly data * 2 ^ 8) ∧
    (∀ r, r < 2 ^ 8 → (∃ q, gf2Mul q crcPoly ^^^ r = msgPoly data * 2 ^ 8) → r = crc8 data) ∧
    crc8 [] = 0x00 ∧ crc8 [0x00] = 0x00 := by
  have hp1 : 2 ^ 8 ≤ crcPoly := by decide
  have hp2 : crcPoly < 2 ^ (8 + 1) := by decide
  obtain ⟨hlt, hdvd⟩ := crc8_loop_spec data 0 (by decide) hbytes
  simp only [Nat.zero_mul, Nat.zero_xor] at hdvd
  have hM : msgPoly data * 2 ^ 8 < 2 ^ (8 + 8 * data.length) := by
    have := msgPoly_lt data hbytes
    rw [Nat.pow_add, Nat.mul_comm (2 ^ 8)]
    exact Nat.mul_lt_mul_of_pos_right this (by decide)
  obtain ⟨hslt, hsdvd⟩ :=
    gf2ModAux_spec crcPoly 8 hp2 (by decide) (8 * data.length) (msgPoly data * 2 ^ 8) hM
  refine ⟨?_, hlt, ?_, ?_, by decide, by decide⟩
  · exact gf2Rem_unique hp1 hp2 hlt hslt hdvd hsdvd
  · obtain ⟨q, hq⟩ := hdvd
    refine ⟨q, ?_⟩
    rw [hq, Nat.xor_comm (crc8_loop data 0), Nat.xor_assoc]
    unfold crc8
    rw [Nat.xor_self, Nat.xor_zero]
  · rintro r hr ⟨q, hq⟩
    have hrd : gf2Dvd crcPoly (r ^^^ msgPoly data * 2 ^ 8) := by
      refine ⟨q, ?_⟩
      rw [← hq, Nat.xor_comm (gf2Mul q crcPoly), ← Nat.xor_assoc, Nat.xor_self, Nat.zero_xor]
    exact gf2Rem_unique hp1 hp2 hr hlt hrd hdvd

/-- Witness of C10: the bytes 0x68, 0x3A, whose checksum is 0x7C. -/
theorem crc8_refines_spec_witness :
    crc8 [0x68, 0x3A] = crc8_spec [0x68, 0x3A] ∧ crc8 [0x68, 0x3A] = 0x7C :=
  ⟨(crc8_refines_spec [0x68, 0x3A] (by decide)).1, by decide⟩

/-! ## Conversion -/

/-- C11: the conversion used by `mgos_htu31d_read` maps the raw value 0 to
temperature -40 and humidity 0, and 65535 to temperature 125 and humidity
100; for every raw value `r` with `r ≤ 65535` the temperature lies in
[-40, 125] and the humidity in [0, 100]; both are strictly increasing in the
raw value; and the raw value that the read forms from two bytes is always at
most 65535 (over exact rationals). -/
theorem conversion_range_and_monotone :
    convTemperature 0 = -40 ∧ convHumidity 0 = 0 ∧
    convTemperature 65535 = 125 ∧ convHumidity 65535 = 100 ∧
    (∀ r : Nat, r ≤ 65535 →
      -40 ≤ convTemperature r ∧ convTemperature r ≤ 125 ∧
      0 ≤ convHumidity r ∧ convHumidity r ≤ 100) ∧
    (∀ r1 r2 : Nat, r1 < r2 →
      convTemperature r1 < convTemperature r2 ∧ convHumidity r1 < convHumidity r2) ∧
    (∀ hi lo : Nat, raw16 hi lo ≤ 65535) := by
  refine ⟨by norm_num [convTemperature], by norm_num [convHumidity],
    by norm_num [convTemperature], by norm_num [convHumidity], ?_, ?_, ?_⟩
  · intro r hr
    have h0 : (0 : ℚ) ≤ (r : ℚ) := Nat.cast_nonneg r
    have h1 : (r : ℚ) ≤ 65535 := by exact_mod_cast hr
    unfold convTemperature convHumidity
    refine ⟨?_, ?_, ?_, ?_⟩
    · linarith [div_nonneg h0 (show (0 : ℚ) ≤ 65535 by norm_num)]
    · have : (r : ℚ) / 65535 ≤ 1 := by rw [div_le_one (by norm_num)]; exact h1
      linarith
    · have := div_nonneg h0 (show (0 : ℚ) ≤ 65535 by norm_num)
      linarith
    · have : (r : ℚ) / 65535 ≤ 1 := by rw [div_le_one (by norm_num)]; exact h1
      linarith
  · intro r1 r2 h
    have hq : (r1 : ℚ) < (r2 : ℚ) := by exact_mod_cast h
    have hd : (r1 : ℚ) / 65535 < (r2 : ℚ) / 65535 :=
      div_lt_div_of_pos_right hq (by norm_num)
    unfold convTemperature convHumidity
    constructor <;> linarith
  · intro hi lo
    unfold raw16
    omega

/-- Witness of C11: the raw values 32767 and 32768. -/
theorem conversion_range_and_monotone_witness :
    (-40 ≤ convTemperature 32767 ∧ convTemperature 32767 ≤ 125 ∧
      0 ≤ convHumidity 32767 ∧ convHumidity 32767 ≤ 100) ∧
    (convTemperature 32767 < convTemperature 32768 ∧
      convHumidity 32767 < convHumidity 32768) :=
  ⟨conversion_range_and_monotone.2.2.2.2.1 32767 (by decide),
   conversion_range_and_monotone.2.2.2.2.2.1 32767 32768 (by decide)⟩

/-! ## Creation -/

/-- C12: `mgos_htu31d_create` returns a session exactly when the transport
handle is present, the allocation succeeds, the 4-byte identification read
succeeds and the value read is not zero; in every other case it returns
`NULL`.  A session it returns has the given address and transport, and its
counters, `last_read_time`, `read_success_usecs`, temperature and humidity
are all zero. -/
theorem create_returns_session_iff (env : CreateEnv) (i2c : Option Nat) (i2caddr : Nat) :
    ((∃ s, (mgos_htu31d_create env i2c i2caddr).1 = some s) ↔
      ((∃ h, i2c = some h) ∧ env.alloc_ok = true ∧
        ∃ v, env.version = some v ∧ v % 2 ^ 32 ≠ 0)) ∧
    (∀ s, (mgos_htu31d_create env i2c i2caddr).1 = some s →
      s.i2caddr = i2caddr ∧ s.i2c = i2c ∧
      s.stats.read = 0 ∧ s.stats.read_success = 0 ∧ s.stats.read_success_cached = 0 ∧
      s.stats.last_read_time = 0 ∧ s.stats.read_success_usecs = 0 ∧
      s.temperature = 0 ∧ s.humidity = 0) := by
  cases i2c with
  | none => simp [mgos_htu31d_create]
  | some h =>
    cases ha : env.alloc_ok with
    | false => simp [mgos_htu31d_create, ha]
    | true =>
      cases hv : env.version with
      | none => simp [mgos_htu31d_create, ha, hv]
      | some v =>
        by_cases hz : v % 4294967296 = 0
        · simp [mgos_htu31d_create, ha, hv, hz]
        · constructor
          · simp [mgos_htu31d_create, ha, hv, hz]
          · intro s hs
            simp [mgos_htu31d_create, ha, hv, hz] at hs
            subst hs
            simp

/-- Witness of C12: the session `exFresh` returned for the answers
`exCreateEnv`. -/
theorem create_returns_session_iff_witness :
    exFresh.i2caddr = 0x40 ∧ exFresh.i2c = some 0 ∧
    exFresh.stats.read = 0 ∧ exFresh.stats.read_success = 0 ∧
    exFresh.stats.read_success_cached = 0 ∧
    exFresh.stats.last_read_time = 0 ∧ exFresh.stats.read_success_usecs = 0 ∧
    exFresh.temperature = 0 ∧ exFresh.humidity = 0 :=
  (create_returns_session_iff exCreateEnv (some 0) 0x40).2 exFresh
    (by simp [mgos_htu31d_create, exCreateEnv, exFresh])

/-! ## Accessors -/

/-- A call of `mgos_htu31d_read` that returns true leaves a session. -/
theorem read_ret_true_sensor (env : ReadEnv) (sensor : Option mgos_htu31d)
    (h : (mgos_htu31d_read env sensor).ret = true) :
    ∃ s1, (mgos_htu31d_read env sensor).sensor = some s1 := by
  cases sensor with
  | none => simp [mgos_htu31d_read] at h
  | some s =>
    cases hi : s.i2c with
    | none => simp [mgos_htu31d_read, hi] at h
    | some hd =>
      simp only [mgos_htu31d_read, hi]
      split_ifs
      · exact ⟨_, rfl⟩
      · cases env.data with
        | none => exact ⟨_, rfl⟩
        | some p =>
          simp only []
          split_ifs <;> exact ⟨_, rfl⟩

/-- C13: for every session argument, absent or not,
`mgos_htu31d_getTemperature` performs one `mgos_htu31d_read` (same session
afterwards, same external operations), returns `NAN` exactly when that read
returns false, and otherwise returns the temperature field as it stands
after the read; likewise `mgos_htu31d_getHumidity` with the humidity
field. -/
theorem get_accessors_follow_read (env : ReadEnv) (sensor : Option mgos_htu31d) :
    ((mgos_htu31d_getTemperature env sensor).sensor = (mgos_htu31d_read env sensor).sensor ∧
      (mgos_htu31d_getTemperature env sensor).trace = (mgos_htu31d_read env sensor).trace ∧
      ((mgos_htu31d_getTemperature env sensor).value = none ↔
        (mgos_htu31d_read env sensor).ret = false) ∧
      ((mgos_htu31d_read env sensor).ret = true →
        (mgos_htu31d_getTemperature env sensor).value
          = (mgos_htu31d_read env sensor).sensor.map (fun s => s.temperature))) ∧
    ((mgos_htu31d_getHumidity env sensor).sensor = (mgos_htu31d_read env sensor).sensor ∧
      (mgos_htu31d_getHumidity env sensor).trace = (mgos_htu31d_read env sensor).trace ∧
      ((mgos_htu31d_getHumidity env sensor).value = none ↔
        (mgos_htu31d_read env sensor).ret = false) ∧
      ((mgos_htu31d_read env sensor).ret = true →
        (mgos_htu31d_getHumidity env sensor).value
          = (mgos_htu31d_read env sensor).sensor.map (fun s => s.humidity))) := by
  cases hr : (mgos_htu31d_read env sensor).ret with
  | false => simp [mgos_htu31d_getTemperature, mgos_htu31d_getHumidity, hr]
  | true =>
    obtain ⟨s1, hs1⟩ := read_ret_true_sensor env sensor hr
    simp [mgos_htu31d_getTemperature, mgos_htu31d_getHumidity, hr, hs1]

/-- Witness of C13: the call `exEnvGood` on `exSession` returns the
temperature and the humidity that the read has stored. -/
theorem get_accessors_follow_read_witness :
    (mgos_htu31d_getTemperature exEnvGood (some exSession)).value
      = (mgos_htu31d_read exEnvGood (some exSession)).sensor.map (fun s => s.temperature) ∧
    (mgos_htu31d_getHumidity exEnvGood (some exSession)).value
      = (mgos_htu31d_read exEnvGood (some exSession)).sensor.map (fun s => s.humidity) :=
  have hret : (mgos_htu31d_read exEnvGood (some exSession)).ret = true := by
    have e1 : crc8 [0x68, 0x3A] = 0x7C := by decide
    have e2 : crc8 [0x4E, 0x85] = 0x6B := by decide
    simp [mgos_htu31d_read, exSession, exEnvGood, exPayload, MGOS_HTU31D_READ_DELAY, e1, e2]
    norm_num
  ⟨(get_accessors_follow_read exEnvGood (some exSession)).1.2.2.2 hret,
   (get_accessors_follow_read exEnvGood (some exSession)).2.2.2.2 hret⟩

/-! ## Heater -/

/-- C14: for a session with a transport, `mgos_htu31d_setHeater` performs
exactly one external operation, the write of one byte to the address of the
session, 0x04 when `state` is true and 0x02 when it is false, returns the
result of that write and leaves the session as it was; with no session or no
transport it returns false and performs no operation. -/
theorem setHeater_writes_one_command (write_ok state : Bool) :
    (∀ (s : mgos_htu31d) (h : Nat), s.i2c = some h →
      mgos_htu31d_setHeater write_ok (some s) state
        = { ret := write_ok, sensor := some s,
            trace := [BusOp.write h s.i2caddr [if state then 0x04 else 0x02] true] }) ∧
    (∀ s : mgos_htu31d, s.i2c = none →
      mgos_htu31d_setHeater write_ok (some s) state
        = { ret := false, sensor := some s, trace := [] }) ∧
    mgos_htu31d_setHeater write_ok none state = { ret := false, sensor := none, trace := [] } := by
  refine ⟨?_, ?_, ?_⟩
  · intro s h hi
    cases write_ok <;> cases state <;>
      simp [mgos_htu31d_setHeater, mgos_htu31d_cmd, hi, MGOS_HTU31D_HEATERON,
        MGOS_HTU31D_HEATEROFF]
  · intro s hi
    simp [mgos_htu31d_setHeater, mgos_htu31d_cmd, hi]
  · simp [mgos_htu31d_setHeater, mgos_htu31d_cmd]

/-- Witness of C14: switching the heater on for `exSession`, the write
succeeding. -/
theorem setHeater_writes_one_command_witness :
    mgos_htu31d_setHeater true (some exSession) true
      = { ret := true, sensor := some exSession,
          trace := [BusOp.write 0 exSession.i2caddr [if true then 0x04 else 0x02] true] } :=
  (setHeater_writes_one_command true true).1 exSession 0 rfl

/-! ## Counters -/

/-- One call of `mgos_htu31d_read` on a session: each counter is unchanged
or incremented as a `uint32_t`. -/
theorem read_counters_step (env : ReadEnv) (s : mgos_htu31d) :
    ∃ s1, (mgos_htu31d_read env (some s)).sensor = some s1 ∧
      (s1.stats.read = s.stats.read ∨ s1.stats.read = (s.stats.read + 1) % 2 ^ 32) ∧
      (s1.stats.read_success = s.stats.read_success ∨
        s1.stats.read_success = (s.stats.read_success + 1) % 2 ^ 32) ∧
      (s1.stats.read_success_cached = s.stats.read_success_cached ∨
        s1.stats.read_success_cached = (s.stats.read_success_cached + 1) % 2 ^ 32) := by
  cases hi : s.i2c with
  | none => exact ⟨s, by simp [mgos_htu31d_read, hi], Or.inl rfl, Or.inl rfl, Or.inl rfl⟩
  | some h =>
    by_cases hw : env.start - s.stats.last_read_time < MGOS_HTU31D_READ_DELAY
    · simp [mgos_htu31d_read, hi, hw]
    · cases hd : env.data with
      | none => simp [mgos_htu31d_read, hi, hw, hd]
      | some p =>
        by_cases hc1 : p.b2 = crc8 [p.b0, p.b1]
        · by_cases hc2 : p.b5 = crc8 [p.b3, p.b4]
          · simp [mgos_htu31d_read, hi, hw, hd, ← hc1, ← hc2]
          · simp [mgos_htu31d_read, hi, hw, hd, ← hc1, hc2]
        · simp [mgos_htu31d_read, hi, hw, hd, hc1]

/-- The accessors leave the session that their read leaves. -/
theorem get_sensor_eq_read (env : ReadEnv) (sensor : Option mgos_htu31d) :
    (mgos_htu31d_getTemperature env sensor).sensor = (mgos_htu31d_read env sensor).sensor ∧
    (mgos_htu31d_getHumidity env sensor).sensor = (mgos_htu31d_read env sensor).sensor := by
  constructor
  · unfold mgos_htu31d_getTemperature
    simp only []
    split_ifs
    · rfl
    · split <;> rfl
  · unfold mgos_htu31d_getHumidity
    simp only []
    split_ifs
    · rfl
    · split <;> rfl

/-- Every operation leaves a session in place, each counter unchanged or
incremented as a `uint32_t`. -/
theorem op_counters_step (op : Op) (s : mgos_htu31d) :
    ∃ s1, op.run (some s) = some s1 ∧
      (s1.stats.read = s.stats.read ∨ s1.stats.read = (s.stats.read + 1) % 2 ^ 32) ∧
      (s1.stats.read_success = s.stats.read_success ∨
        s1.stats.read_success = (s.stats.read_success + 1) % 2 ^ 32) ∧
      (s1.stats.read_success_cached = s.stats.read_success_cached ∨
        s1.stats.read_success_cached = (s.stats.read_success_cached + 1) % 2 ^ 32) := by
  cases op with
  | read env => exact read_counters_step env s
  | getTemperature env =>
    simp only [Op.run, (get_sensor_eq_read env (some s)).1]
    exact read_counters_step env s
  | getHumidity env =>
    simp only [Op.run, (get_sensor_eq_read env (some s)).2]
    exact read_counters_step env s
  | setHeater write_ok state =>
    exact ⟨s, rfl, Or.inl rfl, Or.inl rfl, Or.inl rfl⟩
  | getStats stats =>
    refine ⟨s, ?_, Or.inl rfl, Or.inl rfl, Or.inl rfl⟩
    cases stats <;> rfl

/-- Counterexample to C15 as stated: the session `exSessionMax` holds
`read = 2^32 - 1`; a call of `mgos_htu31d_read` at time 1 (served from the
cache) leaves `read = 0`, which is smaller. -/
theorem counters_wrap_counterexample :
    exSessionMax.stats.read = 2 ^ 32 - 1 ∧
    Op.run (Op.read exEnvEarly) (some exSessionMax)
      = some { exSessionMax with
          stats := { exSessionMax.stats with read := 0, read_success_cached := 4294967294 } } ∧
    ¬ ((0 : Nat) ≥ exSessionMax.stats.read) := by
  refine ⟨by decide, ?_, by decide⟩
  simp [Op.run, mgos_htu31d_read, exSessionMax, exEnvEarly, MGOS_HTU31D_READ_DELAY]

/-- C15 as amended: for every session and every operation on it (read,
getTemperature, getHumidity, setHeater, getStats) each of the counters
`read`, `read_success` and `read_success_cached` that is below `2^32 - 1`
before the operation is, after it, greater than or equal to its value
before; in every case a counter is left unchanged or incremented by one as a
`uint32_t`, so that a counter holding `2^32 - 1` becomes 0 when it is
incremented. -/
theorem counters_monotone_below_max (op : Op) (s : mgos_htu31d) :
    ∃ s1, op.run (some s) = some s1 ∧
      (s.stats.read < 2 ^ 32 - 1 → s.stats.read ≤ s1.stats.read) ∧
      (s.stats.read_success < 2 ^ 32 - 1 → s.stats.read_success ≤ s1.stats.read_success) ∧
      (s.stats.read_success_cached < 2 ^ 32 - 1 →
        s.stats.read_success_cached ≤ s1.stats.read_success_cached) ∧
      (s1.stats.read = s.stats.read ∨ s1.stats.read = (s.stats.read + 1) % 2 ^ 32) ∧
      (s1.stats.read_success = s.stats.read_success ∨
        s1.stats.read_success = (s.stats.read_success + 1) % 2 ^ 32) ∧
      (s1.stats.read_success_cached = s.stats.read_success_cached ∨
        s1.stats.read_success_cached = (s.stats.read_success_cached + 1) % 2 ^ 32) := by
  obtain ⟨s1, hs1, h1, h2, h3⟩ := op_counters_step op s
  refine ⟨s1, hs1, ?_, ?_, ?_, h1, h2, h3⟩
  · intro hlt; rcases h1 with h | h <;> omega
  · intro hlt; rcases h2 with h | h <;> omega
  · intro hlt; rcases h3 with h | h <;> omega

/-- Witness of C15 as amended: the read `exEnvGood` on `exSession`, whose
counters are 1, 1 and 0. -/
theorem counters_monotone_below_max_witness :
    ∃ s1, Op.run (Op.read exEnvGood) (some exSession) = some s1 ∧
      exSession.stats.read ≤ s1.stats.read ∧
      exSession.stats.read_success ≤ s1.stats.read_success ∧
      exSession.stats.read_success_cached ≤ s1.stats.read_success_cached :=
  have h := counters_monotone_below_max (Op.read exEnvGood) exSession
  h.elim fun s1 hs => ⟨s1, hs.1, hs.2.1 (by decide), hs.2.2.1 (by decide), hs.2.2.2.1 (by decide)⟩

/-! ## Destruction -/

/-- C16: `mgos_htu31d_destroy` applied to a handle that holds a session
leaves the handle empty; applied to an empty handle it leaves it empty and
frees nothing; applying it twice gives the same handle as applying it once;
and it performs no external operation. -/
theorem destroy_empties_handle (handle : Option mgos_htu31d) :
    (mgos_htu31d_destroy handle).1 = none ∧
    (mgos_htu31d_destroy none) = (none, false, []) ∧
    (mgos_htu31d_destroy (mgos_htu31d_destroy handle).1).1 = (mgos_htu31d_destroy handle).1 ∧
    (mgos_htu31d_destroy (mgos_htu31d_destroy handle).1).2.1 = false ∧
    (mgos_htu31d_destroy handle).2.2 = [] ∧
    (handle.isSome = true → (mgos_htu31d_destroy handle).2.1 = true) := by
  cases handle <;> simp [mgos_htu31d_destroy]

/-- Witness of C16: destroying the handle that holds `exSession`. -/
theorem destroy_empties_handle_witness :
    (mgos_htu31d_destroy (some exSession)).2.1 = true :=
  (destroy_empties_handle (some exSession)).2.2.2.2.2 rfl

/-! ### Linearity of the checksum -/

theorem xor_swap4 (a b c d : Nat) : (a ^^^ b) ^^^ (c ^^^ d) = (a ^^^ c) ^^^ (b ^^^ d) := by
  apply Nat.eq_of_testBit_eq
  intro i
  simp only [Nat.testBit_xor]
  cases Nat.testBit a i <;> cases Nat.testBit b i <;> cases Nat.testBit c i <;>
    cases Nat.testBit d i <;> rfl

theorem xor_mod_two_pow (a b k : Nat) : (a ^^^ b) % 2 ^ k = a % 2 ^ k ^^^ b % 2 ^ k := by
  apply Nat.eq_of_testBit_eq
  intro i
  simp only [Nat.testBit_mod_two_pow, Nat.testBit_xor]
  cases decide (i < k) <;> simp

theorem xor_div_two_pow (a b k : Nat) : (a ^^^ b) / 2 ^ k = a / 2 ^ k ^^^ b / 2 ^ k := by
  apply Nat.eq_of_testBit_eq
  intro i
  simp only [← Nat.shiftRight_eq_div_pow, Nat.testBit_shiftRight, Nat.testBit_xor]

set_option maxRecDepth 100000 in
theorem crc8_bit_closed : ∀ c, c < 256 → crc8_bit c = 2 * c ^^^ (c / 128) * crcPoly := by
  decide

theorem crc8_bit_xor {x y : Nat} (hx : x < 256) (hy : y < 256) :
    crc8_bit (x ^^^ y) = crc8_bit x ^^^ crc8_bit y := by
  have hxy : x ^^^ y < 256 := Nat.xor_lt_two_pow (n := 8) hx hy
  rw [crc8_bit_closed _ hxy, crc8_bit_closed _ hx, crc8_bit_closed _ hy, two_mul_xor,
    xor_swap4]
  have hd : (x ^^^ y) / 128 = x / 128 ^^^ y / 128 := xor_div_two_pow x y 7
  rw [hd]
  have hxa : x / 128 = 0 ∨ x / 128 = 1 := by omega
  have hya : y / 128 = 0 ∨ y / 128 = 1 := by omega
  rcases hxa with h1 | h1 <;> rcases hya with h2 | h2 <;> rw [h1, h2] <;>
    exact congrArg _ (by decide)

theorem crc8_inner_lt (k : Nat) : ∀ c, c < 256 → crc8_inner k c < 256 := by
  induction k with
  | zero => intro c hc; exact hc
  | succ k ih => intro c hc; exact ih _ (crc8_bit_lt hc)

theorem crc8_inner_xor (k : Nat) : ∀ x y, x < 256 → y < 256 →
    crc8_inner k (x ^^^ y) = crc8_inner k x ^^^ crc8_inner k y := by
  induction k with
  | zero => intro x y _ _; rfl
  | succ k ih =>
    intro x y hx hy
    simp only [crc8_inner]
    rw [crc8_bit_xor hx hy]
    exact ih _ _ (crc8_bit_lt hx) (crc8_bit_lt hy)

theorem crc8_loop_lt (data : List Nat) : ∀ c, c < 256 → crc8_loop data c < 256 := by
  induction data with
  | nil => intro c hc; exact hc
  | cons d ds ih =>
    intro c _
    exact ih _ (crc8_inner_lt 8 _ (Nat.mod_lt _ (by decide)))

theorem crc8_loop_xor (a : List Nat) : ∀ (b : List Nat) (c1 c2 : Nat),
    a.length = b.length → c1 < 256 → c2 < 256 →
    crc8_loop (List.zipWith (fun x y => x ^^^ y) a b) (c1 ^^^ c2)
      = crc8_loop a c1 ^^^ crc8_loop b c2 := by
  induction a with
  | nil =>
    intro b c1 c2 hlen _ _
    cases b with
    | nil => rfl
    | cons e es => simp at hlen
  | cons d ds ih =>
    intro b c1 c2 hlen h1 h2
    cases b with
    | nil => simp at hlen
    | cons e es =>
      simp only [List.length_cons, Nat.add_right_cancel_iff] at hlen
      simp only [List.zipWith_cons_cons, crc8_loop]
      have hm : (c1 ^^^ c2 ^^^ (d ^^^ e)) % 256 = (c1 ^^^ d) % 256 ^^^ (c2 ^^^ e) % 256 := by
        rw [xor_swap4]
        exact xor_mod_two_pow _ _ 8
      rw [hm, crc8_inner_xor 8 _ _ (Nat.mod_lt _ (by decide)) (Nat.mod_lt _ (by decide))]
      exact ih es _ _ hlen (crc8_inner_lt 8 _ (Nat.mod_lt _ (by decide)))
        (crc8_inner_lt 8 _ (Nat.mod_lt _ (by decide)))

theorem crc8_xor (a b : List Nat) (hlen : a.length = b.length) :
    crc8 (List.zipWith (fun x y => x ^^^ y) a b) = crc8 a ^^^ crc8 b := by
  have h := crc8_loop_xor a b 0 0 hlen (by decide) (by decide)
  simpa [crc8] using h

theorem crc8_loop_append (a b : List Nat) : ∀ c,
    crc8_loop (a ++ b) c = crc8_loop b (crc8_loop a c) := by
  induction a with
  | nil => intro c; rfl
  | cons d ds ih => intro c; exact ih _

/-- The checksum of a single inverted bit in two data bytes is not zero. -/
theorem crc8_single_bit_ne_zero : ∀ k, k < 8 →
    crc8 [2 ^ k, 0] ≠ 0 ∧ crc8 [0, 2 ^ k] ≠ 0 := by
  decide

/-- A value differs from itself with a nonzero pattern added. -/
theorem ne_xor_of_ne_zero {c e : Nat} (he : e ≠ 0) : c ≠ c ^^^ e := by
  intro h
  have h2 : c ^^^ 0 = c ^^^ e := by rw [Nat.xor_zero]; exact h
  exact he (Nat.xor_right_inj.mp h2).symm

/-- Inverting one bit of one of two data bytes changes the checksum. -/
theorem crc8_flip_data (d0 d1 k : Nat) (hk : k < 8) :
    crc8 [d0, d1] ≠ crc8 [d0 ^^^ 2 ^ k, d1] ∧ crc8 [d0, d1] ≠ crc8 [d0, d1 ^^^ 2 ^ k] := by
  have h0 := crc8_xor [d0, d1] [2 ^ k, 0] rfl
  have h1 := crc8_xor [d0, d1] [0, 2 ^ k] rfl
  simp only [List.zipWith_cons_cons, List.zipWith_nil_right, Nat.xor_zero] at h0 h1
  rw [h0, h1]
  exact ⟨ne_xor_of_ne_zero (crc8_single_bit_ne_zero k hk).1,
    ne_xor_of_ne_zero (crc8_single_bit_ne_zero k hk).2⟩

/-- C17: for every pair of data bytes with checksum `c = crc8 [d0, d1]`,
inverting any single one of the 24 bits of the triple `(d0, d1, c)` gives a
triple whose third byte is not the checksum of its first two; and a
`mgos_htu31d_read` outside the cache window whose response is a valid
payload with one bit inverted, in either triple, returns false. -/
theorem crc8_rejects_single_bit_flip (d0 d1 k : Nat) (hk : k < 8) :
    crc8 [d0, d1] ≠ crc8 [d0 ^^^ 2 ^ k, d1] ∧
    crc8 [d0, d1] ≠ crc8 [d0, d1 ^^^ 2 ^ k] ∧
    crc8 [d0, d1] ^^^ 2 ^ k ≠ crc8 [d0, d1] ∧
    ∀ (s : mgos_htu31d) (env : ReadEnv) (p : Payload) (i : Nat),
      ¬ (env.start - s.stats.last_read_time < MGOS_HTU31D_READ_DELAY) →
      p.b2 = crc8 [p.b0, p.b1] → p.b5 = crc8 [p.b3, p.b4] → i < 6 →
      env.data = some (p.flipBit i k) →
      (mgos_htu31d_read env (some s)).ret = false := by
  have hpow : (2 : Nat) ^ k ≠ 0 := Nat.pos_iff_ne_zero.mp (Nat.two_pow_pos k)
  refine ⟨(crc8_flip_data d0 d1 k hk).1, (crc8_flip_data d0 d1 k hk).2,
    (ne_xor_of_ne_zero hpow).symm, ?_⟩
  intro s env p i hwin hc1 hc2 hi hdata
  cases hi2c : s.i2c with
  | none => simp [mgos_htu31d_read, hi2c]
  | some h =>
    have ht0 := (crc8_flip_data p.b0 p.b1 k hk).1
    have ht1 := (crc8_flip_data p.b0 p.b1 k hk).2
    have hh0 := (crc8_flip_data p.b3 p.b4 k hk).1
    have hh1 := (crc8_flip_data p.b3 p.b4 k hk).2
    have ht2 : p.b2 ^^^ 2 ^ k ≠ crc8 [p.b0, p.b1] := by
      rw [hc1]; exact (ne_xor_of_ne_zero hpow).symm
    have hh2 : p.b5 ^^^ 2 ^ k ≠ crc8 [p.b3, p.b4] := by
      rw [hc2]; exact (ne_xor_of_ne_zero hpow).symm
    rw [← hc1] at ht0 ht1
    rw [← hc2] at hh0 hh1
    have hi6 : i = 0 ∨ i = 1 ∨ i = 2 ∨ i = 3 ∨ i = 4 ∨ i = 5 := by omega
    rcases hi6 with rfl | rfl | rfl | rfl | rfl | rfl
    · simp [mgos_htu31d_read, hi2c, hwin, hdata, Payload.flipBit, ht0]
    · simp [mgos_htu31d_read, hi2c, hwin, hdata, Payload.flipBit, ht1]
    · simp [mgos_htu31d_read, hi2c, hwin, hdata, Payload.flipBit, ht2]
    · simp [mgos_htu31d_read, hi2c, hwin, hdata, Payload.flipBit, ← hc1, hh0]
    · simp [mgos_htu31d_read, hi2c, hwin, hdata, Payload.flipBit, ← hc1, hh1]
    · simp [mgos_htu31d_read, hi2c, hwin, hdata, Payload.flipBit, ← hc1, hh2]

/-- Witness of C17: the data bytes 0x68, 0x3A (checksum 0x7C) and bit 3. -/
theorem crc8_rejects_single_bit_flip_witness :
    crc8 [0x68, 0x3A] ≠ crc8 [0x68 ^^^ 2 ^ 3, 0x3A] ∧
    crc8 [0x68, 0x3A] ≠ crc8 [0x68, 0x3A ^^^ 2 ^ 3] ∧
    crc8 [0x68, 0x3A] ^^^ 2 ^ 3 ≠ crc8 [0x68, 0x3A] :=
  have h := crc8_rejects_single_bit_flip 0x68 0x3A 3 (by decide)
  ⟨h.1, h.2.1, h.2.2.1⟩

/-! ## First read after creation, and the all-zero response -/

/-- C18: for a session returned by `mgos_htu31d_create` and a first call
whose start time is below 2 seconds, `mgos_htu31d_read` returns true with no
external operation, counts the call in `read` and `read_success_cached` and
leaves temperature 0 and humidity 0; `mgos_htu31d_getTemperature` and
`mgos_htu31d_getHumidity` called at that time return 0, with no external
operation either. -/
theorem first_read_after_create_is_cached (cenv : CreateEnv) (i2c : Option Nat)
    (i2caddr : Nat) (s : mgos_htu31d) (env : ReadEnv)
    (hcreate : (mgos_htu31d_create cenv i2c i2caddr).1 = some s)
    (hstart : env.start < 2) :
    mgos_htu31d_read env (some s)
      = { ret := true,
          sensor := some { s with
            stats := { s.stats with read := 1, read_success_cached := 1 } },
          trace := [] } ∧
    s.temperature = 0 ∧ s.humidity = 0 ∧ s.stats.read_success = 0 ∧
    (mgos_htu31d_getTemperature env (some s)).value = some 0 ∧
    (mgos_htu31d_getTemperature env (some s)).trace = [] ∧
    (mgos_htu31d_getHumidity env (some s)).value = some 0 ∧
    (mgos_htu31d_getHumidity env (some s)).trace = [] := by
  have hs : ∃ h, s = (⟨some h, i2caddr, ⟨0, 0, 0, 0, 0⟩, 0, 0⟩ : mgos_htu31d) := by
    cases i2c with
    | none => simp [mgos_htu31d_create] at hcreate
    | some h =>
      cases ha : cenv.alloc_ok with
      | false => simp [mgos_htu31d_create, ha] at hcreate
      | true =>
        cases hv : cenv.version with
        | none => simp [mgos_htu31d_create, ha, hv] at hcreate
        | some v =>
          by_cases hz : v % 4294967296 = 0
          · simp [mgos_htu31d_create, ha, hv, hz] at hcreate
          · simp [mgos_htu31d_create, ha, hv, hz] at hcreate
            exact ⟨h, hcreate.symm⟩
  obtain ⟨h, rfl⟩ := hs
  simp [mgos_htu31d_read, mgos_htu31d_getTemperature, mgos_htu31d_getHumidity,
    MGOS_HTU31D_READ_DELAY, hstart]

/-- Witness of C18: the call `exEnvEarly` (time 1) on `exFresh`. -/
theorem first_read_after_create_is_cached_witness :
    (mgos_htu31d_getTemperature exEnvEarly (some exFresh)).value = some 0 ∧
    (mgos_htu31d_getHumidity exEnvEarly (some exFresh)).value = some 0 :=
  have h := first_read_after_create_is_cached exCreateEnv (some 0) 0x40 exFresh exEnvEarly
    (by simp [mgos_htu31d_create, exCreateEnv, exFresh]) (by norm_num [exEnvEarly])
  ⟨h.2.2.2.2.1, h.2.2.2.2.2.2.1⟩

/-- C19: for a session with a transport outside its cache window whose
6-byte read succeeds with six zero bytes, both checksum tests pass
(`crc8 [0, 0] = 0`) and `mgos_htu31d_read` returns true, stores temperature
-40 and humidity 0 and increments `read_success` (as `uint32_t`). -/
theorem read_accepts_all_zero_response (s : mgos_htu31d) (h : Nat) (env : ReadEnv)
    (hi2c : s.i2c = some h)
    (hwin : ¬ (env.start - s.stats.last_read_time < MGOS_HTU31D_READ_DELAY))
    (hdata : env.data = some { b0 := 0, b1 := 0, b2 := 0, b3 := 0, b4 := 0, b5 := 0 }) :
    crc8 [0, 0] = 0 ∧
    (mgos_htu31d_read env (some s)).ret = true ∧
    ∃ s1, (mgos_htu31d_read env (some s)).sensor = some s1 ∧
      s1.temperature = -40 ∧ s1.humidity = 0 ∧
      s1.stats.read_success = (s.stats.read_success + 1) % 2 ^ 32 := by
  refine ⟨crc8_zero_zero, ?_, ?_⟩
  · simp [mgos_htu31d_read, hi2c, hwin, hdata, crc8_zero_zero]
  · simp [mgos_htu31d_read, hi2c, hwin, hdata, crc8_zero_zero, raw16, convTemperature,
      convHumidity]

/-- Witness of C19: the call `exEnvZeros` on `exSession`. -/
theorem read_accepts_all_zero_response_witness :
    crc8 [0, 0] = 0 ∧
    (mgos_htu31d_read exEnvZeros (some exSession)).ret = true ∧
    ∃ s1, (mgos_htu31d_read exEnvZeros (some exSession)).sensor = some s1 ∧
      s1.temperature = -40 ∧ s1.humidity = 0 ∧
      s1.stats.read_success = (exSession.stats.read_success + 1) % 2 ^ 32 :=
  read_accepts_all_zero_response exSession 0 exEnvZeros rfl
    (by norm_num [exSession, exEnvZeros, MGOS_HTU31D_READ_DELAY]) rfl

/-! ## Residue and linearity of the checksum -/

/-- C20: appending to a sequence its own checksum gives a sequence whose
checksum is zero, and the checksum is linear for XOR on sequences of equal
length: `crc8 (a xor b) = crc8 a xor crc8 b`. -/
theorem crc8_residue_zero_and_linear (d a b : List Nat) (hlen : a.length = b.length) :
    crc8 (d ++ [crc8 d]) = 0x00 ∧
    crc8 (List.zipWith (fun x y => x ^^^ y) a b) = crc8 a ^^^ crc8 b := by
  refine ⟨?_, crc8_xor a b hlen⟩
  unfold crc8
  rw [crc8_loop_append]
  simp only [crc8_loop, Nat.xor_self]
  decide

/-- Witness of C20: the sequences 0x68, 0x3A and 0x4E, 0x85. -/
theorem crc8_residue_zero_and_linear_witness :
    crc8 ([0x68, 0x3A] ++ [crc8 [0x68, 0x3A]]) = 0x00 ∧
    crc8 (List.zipWith (fun x y => x ^^^ y) [0x68, 0x3A] [0x4E, 0x85])
      = crc8 [0x68, 0x3A] ^^^ crc8 [0x4E, 0x85] :=
  crc8_residue_zero_and_linear [0x68, 0x3A] [0x68, 0x3A] [0x4E, 0x85] rfl

end HTU31D
